import Mathlib

/-!
# caffe-crowd: PerspectiveLayer, MapDataLayer and convert_frames

A shallow embedding of `src/caffe/layers/perspective_layer.cpp`,
`src/caffe/layers/map_data_layer.cpp` and `tools/convert_frames.cpp`.

* The template parameter `Dtype` is a type parameter `α`; arithmetic is exact
  (a commutative ring, an ordered field where a quotient is taken).
* Buffers are lists; every element read or write goes through an `Option`,
  so an access outside a buffer makes the whole operation return `none`, as
  does a failed `CHECK`.
* C++ `for (int i = 0; i < n; ++i)` loops are `forLoop n body`.
-/

namespace caffe

/-- Counted loop `for (int i = 0; i < n; ++i) body(i)` over a state, where the
body may fail. Iterations run in the order `0, 1, ..., n-1`. -/
def forLoop {σ : Type} (n : Nat) (body : Nat → σ → Option σ) (s : σ) : Option σ :=
  match n with
  | 0 => some s
  | k + 1 => (forLoop k body s).bind (body k)

/-- Bounds-checked store `buf[i] = v`. -/
def writeAt {α : Type} (buf : List α) (i : Nat) (v : α) : Option (List α) :=
  if i < buf.length then some (buf.set i v) else none

/-! ## Blob -/

/-- Modelled from the spec: the Blob of `caffe/blob.hpp`, sections 3 and 4.1:
a 4-dimensional dense array with logical dimensions (num, channels, height,
width), a values buffer `data` and a gradients buffer `diff`. -/
structure Blob (α : Type) where
  num : Nat
  channels : Nat
  height : Nat
  width : Nat
  data : List α
  diff : List α
deriving DecidableEq

namespace Blob

variable {α : Type}

/-- Modelled from the spec: a default constructed `Blob<Dtype>()`, with no
elements. -/
def empty : Blob α := ⟨0, 0, 0, 0, [], []⟩

/-- Modelled from the spec: `count()`, the total number of elements. -/
def count (b : Blob α) : Nat := b.num * b.channels * b.height * b.width

/-- Modelled from the spec: `count(start_axis)`, the number of elements of the
axes from `start_axis` on; `count(1)` is the number of elements per sample. -/
def countFrom (b : Blob α) (start_axis : Nat) : Nat :=
  ([b.num, b.channels, b.height, b.width].drop start_axis).prod

/-- Modelled from the spec: `offset(n, c, h, w)`, the flat index in row-major
layout with width the fastest-varying dimension; `offset(n)` of the sources is
`offset n 0 0 0`. -/
def offset (b : Blob α) (n c h w : Nat) : Nat :=
  ((n * b.channels + c) * b.height + h) * b.width + w

/-- Modelled from the spec: one buffer after `Reshape` to `cnt` elements. The
reallocation is lazy: a buffer that is large enough is kept (its first `cnt`
elements stay in view), a buffer that is too small is replaced by a fresh
zero-initialised one. -/
def resize [Zero α] (buf : List α) (cnt : Nat) : List α :=
  if cnt ≤ buf.length then buf.take cnt else List.replicate cnt 0

/-- Modelled from the spec: `Reshape(num, channels, height, width)` sets the
shape and resizes both buffers to `num*channels*height*width` elements. -/
def Reshape [Zero α] (b : Blob α) (num channels height width : Nat) : Blob α :=
  { num := num, channels := channels, height := height, width := width,
    data := resize b.data (num * channels * height * width),
    diff := resize b.diff (num * channels * height * width) }

/-- Modelled from the spec: the constructor `Blob<Dtype>(num, channels, height,
width)`: an empty blob reshaped. -/
def create [Zero α] (num channels height width : Nat) : Blob α :=
  (empty : Blob α).Reshape num channels height width

/-- Both buffers hold exactly `count()` elements. -/
def WellFormed (b : Blob α) : Prop :=
  b.data.length = b.count ∧ b.diff.length = b.count

instance (b : Blob α) : Decidable b.WellFormed := by
  unfold WellFormed; infer_instance

end Blob

/-! ## Math functions (`caffe/util/math_functions.hpp`) -/

section math
variable {α : Type} [CommRing α]

/-- Modelled from the spec: `caffe_set(N, alpha, Y)` stores `alpha` in
`Y[0..N)`; it fails when `Y` has fewer than `N` elements. -/
def caffe_set (N : Nat) (alpha : α) (Y : List α) : Option (List α) :=
  if N ≤ Y.length then some (List.replicate N alpha ++ Y.drop N) else none

/-- Modelled from the spec: `caffe_cpu_gemm(CblasNoTrans, CblasNoTrans, M, N,
K, alpha, A, B, beta, C)`, the row-major product `C = alpha*A*B + beta*C` of
an `M×K` by a `K×N` matrix; it fails when a buffer is too short. -/
def caffe_cpu_gemm (M N K : Nat) (alpha : α) (A B : List α) (beta : α)
    (C : List α) : Option (List α) :=
  if M * K ≤ A.length ∧ K * N ≤ B.length ∧ M * N ≤ C.length then
    some ((List.range (M * N)).map (fun idx =>
        alpha * ((List.range K).map (fun k =>
          A.getD (idx / N * K + k) 0 * B.getD (k * N + idx % N) 0)).sum
        + beta * C.getD idx 0)
      ++ C.drop (M * N))
  else none

/-- Modelled from the spec: `caffe_cpu_axpby(N, alpha, X, beta, Y + yoff)`,
the scaled accumulate `Y = alpha*X + beta*Y` on the `N` elements of `Y`
starting at `yoff`; it fails when a buffer is too short. -/
def caffe_cpu_axpby (N : Nat) (alpha : α) (X : List α) (beta : α)
    (Y : List α) (yoff : Nat) : Option (List α) :=
  if N ≤ X.length ∧ yoff + N ≤ Y.length then
    some (Y.take yoff
      ++ (List.range N).map (fun i => alpha * X.getD i 0 + beta * Y.getD (yoff + i) 0)
      ++ Y.drop (yoff + N))
  else none

/-- Modelled from the spec: `caffe_cpu_dot(n, x + xoff, y)`, the inner product
of the `n` elements of `x` starting at `xoff` with `y[0..n)`; it fails when a
buffer is too short. -/
def caffe_cpu_dot (n : Nat) (x : List α) (xoff : Nat) (y : List α) : Option α :=
  if xoff + n ≤ x.length ∧ n ≤ y.length then
    some ((List.range n).map (fun i => x.getD (xoff + i) 0 * y.getD i 0)).sum
  else none

end math

/-! ## PerspectiveLayer (`src/caffe/layers/perspective_layer.cpp`) -/

/-- The `perspective_param` of the layer configuration: the two multipliers
(both 1 by default, as the tests `TestForward` and `TestGradient` rely on). -/
structure PerspectiveParameter (α : Type) where
  slope_mult : α
  intercept_mult : α
deriving DecidableEq

/-- The members of `PerspectiveLayer<Dtype>`. -/
structure PerspectiveLayer (α : Type) where
  perspective_param : PerspectiveParameter α
  num_ : Nat
  channels_ : Nat
  height_ : Nat
  width_ : Nat
  slope_multiplier_ : Blob α
  intercept_multiplier_ : Blob α
deriving DecidableEq

namespace PerspectiveLayer

variable {α : Type} [CommRing α]

/-- The layer as constructed from its configuration, before `SetUp`. -/
def create (p : PerspectiveParameter α) : PerspectiveLayer α :=
  { perspective_param := p, num_ := 0, channels_ := 0, height_ := 0, width_ := 0,
    slope_multiplier_ := Blob.empty, intercept_multiplier_ := Blob.empty }

/-- `PerspectiveLayer::LayerSetUp`: the three `CHECK_EQ`s, the shape members,
and the two multiplier planes, each the product of a column of row factors
and a row of ones scaled by its multiplier. -/
def LayerSetUp (l : PerspectiveLayer α) (bottom : List (Blob α))
    (_top : List (Blob α)) : Option (PerspectiveLayer α) :=
  if bottom.length ≠ 3 then none else do
  let b0 ← bottom[0]?
  let b1 ← bottom[1]?
  let b2 ← bottom[2]?
  if b0.countFrom 1 ≠ 1 then none else
  if b1.countFrom 1 ≠ 1 then none else do
  let num_ := b0.num
  let height_ := b2.height
  let width_ := b2.width
  let channels_ := 1
  -- Initialize multipliers
  let slope_multiplier_ := l.slope_multiplier_.Reshape 1 1 height_ width_
  let intercept_multiplier_ := l.intercept_multiplier_.Reshape 1 1 height_ width_
  let slope_row_fac : Blob α := Blob.empty.Reshape 1 1 height_ 1
  let intercept_row_fac : Blob α := Blob.empty.Reshape 1 1 height_ 1
  let slope_row_data ← forLoop height_ (fun i d => writeAt d i (i : α)) slope_row_fac.data
  let intercept_row_data ← caffe_set height_ 1 intercept_row_fac.data
  let slope_col_fac : Blob α := Blob.empty.Reshape 1 1 1 width_
  let intercept_col_fac : Blob α := Blob.empty.Reshape 1 1 1 width_
  let slope_col_data ← caffe_set width_ 1 slope_col_fac.data
  let intercept_col_data ← caffe_set width_ 1 intercept_col_fac.data
  let slope_mult := l.perspective_param.slope_mult
  let intercept_mult := l.perspective_param.intercept_mult
  let sm ← caffe_cpu_gemm height_ width_ 1 slope_mult slope_row_data slope_col_data
    0 slope_multiplier_.data
  let im ← caffe_cpu_gemm height_ width_ 1 intercept_mult intercept_row_data
    intercept_col_data 0 intercept_multiplier_.data
  some { l with
    num_ := num_, height_ := height_, width_ := width_, channels_ := channels_,
    slope_multiplier_ := { slope_multiplier_ with data := sm },
    intercept_multiplier_ := { intercept_multiplier_ with data := im } }

/-- `PerspectiveLayer::Reshape`: `top[0]->Reshape(num_, 1, height_, width_)`. -/
def Reshape (l : PerspectiveLayer α) (_bottom : List (Blob α))
    (top : List (Blob α)) : Option (List (Blob α)) := do
  let t0 ← top[0]?
  some (top.set 0 (t0.Reshape l.num_ 1 l.height_ l.width_))

/-- `PerspectiveLayer::Forward_cpu`: for each sample, the output plane is
`slope * slope_multiplier_` (first `axpby`, with `beta = 0`) plus
`intercept * intercept_multiplier_` (second `axpby`, with `beta = 1`). -/
def Forward_cpu (l : PerspectiveLayer α) (bottom : List (Blob α))
    (top : List (Blob α)) : Option (List (Blob α)) :=
  forLoop l.num_ (fun n top => do
    let b0 ← bottom[0]?
    let b1 ← bottom[1]?
    let t0 ← top[0]?
    let slope ← b0.data[b0.offset n 0 0 0]?
    let intercept ← b1.data[b1.offset n 0 0 0]?
    let cur_map := t0.offset n 0 0 0
    let d1 ← caffe_cpu_axpby (l.height_ * l.width_) slope l.slope_multiplier_.data
      0 t0.data cur_map
    let d2 ← caffe_cpu_axpby (l.height_ * l.width_) intercept l.intercept_multiplier_.data
      1 d1 cur_map
    some (top.set 0 { t0 with data := d2 })) top

/-- `PerspectiveLayer::Backward_cpu`: for each sample, the inner products of
the output-gradient plane with the two multiplier planes are stored in entry
`n` of the gradients of `bottom[0]` and `bottom[1]`. The flags
`propagate_down` are not consulted. -/
def Backward_cpu (l : PerspectiveLayer α) (top : List (Blob α))
    (_propagate_down : List Bool) (bottom : List (Blob α)) : Option (List (Blob α)) :=
  forLoop l.num_ (fun n bottom => do
    let t0 ← top[0]?
    let top_diff := t0.diff
    let slope_multipliers := l.slope_multiplier_.data
    let intercept_multipliers := l.intercept_multiplier_.data
    let slope_diff ← caffe_cpu_dot (l.height_ * l.width_) top_diff (t0.offset n 0 0 0)
      slope_multipliers
    let intercept_diff ← caffe_cpu_dot (l.height_ * l.width_) top_diff (t0.offset n 0 0 0)
      intercept_multipliers
    let b0 ← bottom[0]?
    let d0 ← writeAt b0.diff n slope_diff
    let bottom := bottom.set 0 { b0 with diff := d0 }
    let b1 ← bottom[1]?
    let d1 ← writeAt b1.diff n intercept_diff
    some (bottom.set 1 { b1 with diff := d1 })) bottom

/-- Modelled from the spec: `Layer::SetUp` of `caffe/layer.hpp` (section 4.2):
validate and initialise with `LayerSetUp`, then call `Reshape`. -/
def SetUp (l : PerspectiveLayer α) (bottom top : List (Blob α)) :
    Option (PerspectiveLayer α × List (Blob α)) := do
  let l' ← l.LayerSetUp bottom top
  let top' ← l'.Reshape bottom top
  some (l', top')

/-- Modelled from the spec: `Layer::Forward` of `caffe/layer.hpp` (section
4.2): `Reshape` is called before every forward pass, then `Forward_cpu`. -/
def Forward (l : PerspectiveLayer α) (bottom top : List (Blob α)) :
    Option (List (Blob α)) := do
  let top' ← l.Reshape bottom top
  l.Forward_cpu bottom top'

end PerspectiveLayer

/-! ## Records, store and cursor -/

/-- Modelled from the spec: a tensor record (`BlobProto` of the protobuf
schema), section 3 and 6: integer shape fields and a flat value sequence. -/
structure BlobProto (α : Type) where
  num : Nat
  channels : Nat
  height : Nat
  width : Nat
  data : List α
deriving DecidableEq

/-- Modelled from the spec: a record store entry (`BlobProtoVector`), the
container of tensor records; a consumed entry holds data, then label. The
serialised string and `ParseFromString` are not modelled: a store holds the
parsed entries. -/
structure BlobProtoVector (α : Type) where
  blobs : List (BlobProto α)
deriving DecidableEq

/-- Modelled from the spec: the `Datum` record that the transform pipeline
accepts, with its values in `float_data`. -/
structure Datum (α : Type) where
  channels : Nat
  height : Nat
  width : Nat
  float_data : List α
deriving DecidableEq

/-- Modelled from the spec: the cursor of section 6 over an ordered store,
with operations `Next`, `SeekToFirst`, `valid` and `value`. -/
structure Cursor (α : Type) where
  db : List (BlobProtoVector α)
  pos : Nat
deriving DecidableEq

namespace Cursor

variable {α : Type}

/-- Modelled from the spec: `NewCursor`, positioned on the first entry. -/
def NewCursor (db : List (BlobProtoVector α)) : Cursor α := ⟨db, 0⟩

/-- Modelled from the spec: `valid()`, the cursor is on an entry. -/
def valid (it : Cursor α) : Bool := decide (it.pos < it.db.length)

/-- Modelled from the spec: `value()`, the entry under the cursor; there is
none when the cursor is past the end. -/
def value (it : Cursor α) : Option (BlobProtoVector α) := it.db[it.pos]?

/-- Modelled from the spec: `Next()`, one entry forward. -/
def Next (it : Cursor α) : Cursor α := { it with pos := it.pos + 1 }

/-- Modelled from the spec: `SeekToFirst()`. -/
def SeekToFirst (it : Cursor α) : Cursor α := { it with pos := 0 }

end Cursor

/-! ## Transform pipeline -/

/-- Modelled from the spec: the transformation configuration (section 6):
scale factor, mirror flag, crop size and the mean to subtract, present when a
mean file is configured (the file is represented by the values it holds). -/
structure TransformationParameter (α : Type) where
  scale : α
  mirror : Bool
  crop_size : Nat
  mean_file : Option (List α)
deriving DecidableEq

/-- Modelled from the spec: a freshly constructed configuration message, all
fields at their defaults (scale 1, no mirror, no crop, no mean file). -/
def TransformationParameter.default {α : Type} [One α] : TransformationParameter α :=
  { scale := 1, mirror := false, crop_size := 0, mean_file := none }

/-- Modelled from the spec: the values that the transform pipeline produces
for a record, section 2 and 4.3: every value has the mean subtracted, when
there is one, and is scaled. -/
def DataTransformer.values {α : Type} [CommRing α] (param : TransformationParameter α)
    (datum : Datum α) : List α :=
  (List.range (datum.channels * datum.height * datum.width)).map (fun i =>
    match param.mean_file with
    | some mean => (datum.float_data.getD i 0 - mean.getD i 0) * param.scale
    | none => datum.float_data.getD i 0 * param.scale)

/-- Modelled from the spec: `DataTransformer::Transform(datum, blob)` with the
blob's values placed at `buf + off` (`set_cpu_data`): the transformed values
of the record are stored there. The record must have the shape of the
destination blob and hold all its values, and a mean must have the size of
the record. Cropping and mirroring are not modelled: a configuration asking
for them makes the call fail (the data layer rejects it at setup). -/
def DataTransformer.Transform {α : Type} [CommRing α] (param : TransformationParameter α)
    (datum : Datum α) (transformed_blob : Blob α) (buf : List α) (off : Nat) :
    Option (List α) :=
  let size := datum.channels * datum.height * datum.width
  if param.crop_size ≠ 0 ∨ param.mirror = true then none
  else if transformed_blob.channels ≠ datum.channels ∨ transformed_blob.height ≠ datum.height
      ∨ transformed_blob.width ≠ datum.width ∨ transformed_blob.num < 1 then none
  else if datum.float_data.length < size ∨ buf.length < off + size then none
  else if (∃ mean, param.mean_file = some mean ∧ mean.length ≠ size) then none
  else some (buf.take off ++ DataTransformer.values param datum ++ buf.drop (off + size))

/-! ## MapDataLayer (`src/caffe/layers/map_data_layer.cpp`) -/

/-- The `data_param` fields the layer reads: `batch_size` and `rand_skip`
(the store itself is passed to `DataLayerSetUp`). -/
structure DataParameter where
  batch_size : Nat
  rand_skip : Nat
deriving DecidableEq

/-- `BlobProto2Datum`: copy channels, height, width and the values. -/
def BlobProto2Datum {α : Type} (blob : BlobProto α) : Datum α :=
  { channels := blob.channels, height := blob.height, width := blob.width,
    float_data := blob.data }

/-- The members of `MapDataLayer<Dtype>` and of its base classes that the
layer uses. -/
structure MapDataLayer (α : Type) where
  data_param : DataParameter
  transform_param : TransformationParameter α
  data_transformer_ : TransformationParameter α
  label_transformer_ : TransformationParameter α
  db_ : List (BlobProtoVector α)
  iter_ : Cursor α
  prefetch_data_ : Blob α
  prefetch_label_ : Blob α
  transformed_data_ : Blob α
  transformed_label_ : Blob α
deriving DecidableEq

namespace MapDataLayer

variable {α : Type} [CommRing α]

/-- `MapDataLayer::label_trans_param`: a fresh configuration with scale 1,
the crop size and mirror flag of the data configuration, and no mean file. -/
def label_trans_param (trans_param : TransformationParameter α) :
    TransformationParameter α :=
  let crop_size := trans_param.crop_size
  let mirror := trans_param.mirror
  let label_transform_param : TransformationParameter α := TransformationParameter.default
  let label_transform_param := { label_transform_param with scale := 1 }
  let label_transform_param := { label_transform_param with crop_size := crop_size }
  let label_transform_param := { label_transform_param with mirror := mirror }
  let label_transform_param := { label_transform_param with mean_file := none }
  label_transform_param

/-- Modelled from the spec: the layer as constructed from its configuration
(the constructor is in `caffe/data_layers.hpp`): the data transformer uses the
configured transformation, the label transformer the forced configuration of
`label_trans_param` (section 4.3); no store is open yet. -/
def create (data_param : DataParameter) (transform_param : TransformationParameter α) :
    MapDataLayer α :=
  { data_param := data_param, transform_param := transform_param,
    data_transformer_ := transform_param,
    label_transformer_ := label_trans_param transform_param,
    db_ := [], iter_ := Cursor.NewCursor [],
    prefetch_data_ := Blob.empty, prefetch_label_ := Blob.empty,
    transformed_data_ := Blob.empty, transformed_label_ := Blob.empty }

/-- The loop `while (skip-- > 0) iter_->Next();`. -/
def skipLoop (skip : Nat) (it : Cursor α) : Cursor α :=
  match skip with
  | 0 => it
  | k + 1 => skipLoop k it.Next

/-- `MapDataLayer::DataLayerSetUp`. `store` is the content of the database
that `db_->Open(source, READ)` opens and `rng` the value that
`caffe_rng_rand()` returns. -/
def DataLayerSetUp (l : MapDataLayer α) (store : List (BlobProtoVector α)) (rng : Nat)
    (_bottom : List (Blob α)) (top : List (Blob α)) :
    Option (MapDataLayer α × List (Blob α)) := do
  -- Initialize DB
  let db_ := store
  let iter_ := Cursor.NewCursor db_
  -- Check if we would need to randomly skip a few data points
  let iter_ :=
    if l.data_param.rand_skip ≠ 0 then
      let skip := rng % l.data_param.rand_skip
      skipLoop skip iter_
    else iter_
  -- Read a data point and use it to initialize the top blob.
  let maps ← iter_.value
  if maps.blobs.length ≠ 2 then none else do
  let dataMap ← maps.blobs[0]?
  let labelMap ← maps.blobs[1]?
  -- do not support mirror and crop for the moment
  let crop_size := l.transform_param.crop_size
  let mirror := l.transform_param.mirror
  if crop_size ≠ 0 then none else
  if mirror = true then none else do
  -- reshape data map
  let batch_size := l.data_param.batch_size
  let t0 ← top[0]?
  let top := top.set 0 (t0.Reshape batch_size dataMap.channels dataMap.height dataMap.width)
  let prefetch_data_ :=
    l.prefetch_data_.Reshape batch_size dataMap.channels dataMap.height dataMap.width
  let transformed_data_ :=
    l.transformed_data_.Reshape 1 dataMap.channels dataMap.height dataMap.width
  -- reshape label map
  let t1 ← top[1]?
  let top := top.set 1 (t1.Reshape batch_size labelMap.channels labelMap.height labelMap.width)
  let prefetch_label_ :=
    l.prefetch_label_.Reshape batch_size labelMap.channels labelMap.height labelMap.width
  let transformed_label_ :=
    l.transformed_label_.Reshape 1 labelMap.channels labelMap.height labelMap.width
  some ({ l with db_ := db_, iter_ := iter_, prefetch_data_ := prefetch_data_,
                 prefetch_label_ := prefetch_label_, transformed_data_ := transformed_data_,
                 transformed_label_ := transformed_label_ }, top)

/-- `MapDataLayer::InternalThreadEntry`: one fill of the staging buffers. For
each slot of the batch the record under the cursor is transformed into the
slot of `prefetch_data_` and of `prefetch_label_`, the cursor moves on, and it
is rewound to the first record when it has run past the last one. -/
def InternalThreadEntry (l : MapDataLayer α) : Option (MapDataLayer α) :=
  if l.prefetch_data_.count = 0 then none else
  let batch_size := l.data_param.batch_size
  forLoop batch_size (fun item_id l => do
    let maps ← l.iter_.value
    -- Data transformer only accepts Datum
    let dataMap := BlobProto2Datum (← maps.blobs[0]?)
    let labelMap := BlobProto2Datum (← maps.blobs[1]?)
    -- Apply data and label transformations (mirror, scale, crop...)
    let offset := l.prefetch_data_.offset item_id 0 0 0
    let top_data ← DataTransformer.Transform l.data_transformer_ dataMap
      l.transformed_data_ l.prefetch_data_.data offset
    let label_offset := l.prefetch_label_.offset item_id 0 0 0
    let top_label ← DataTransformer.Transform l.label_transformer_ labelMap
      l.transformed_label_ l.prefetch_label_.data label_offset
    -- go to the next iter
    let iter_ := l.iter_.Next
    let iter_ := if !iter_.valid then iter_.SeekToFirst else iter_
    some { l with iter_ := iter_,
                  prefetch_data_ := { l.prefetch_data_ with data := top_data },
                  prefetch_label_ := { l.prefetch_label_ with data := top_label } }) l

/-- A number of consecutive fills, each a call of `InternalThreadEntry`. -/
def fills (count : Nat) (l : MapDataLayer α) : Option (MapDataLayer α) :=
  forLoop count (fun _ l => l.InternalThreadEntry) l

/-- The number of records that `DataLayerSetUp` skips for the random draw
`rng`: `rng % rand_skip`, and none when `rand_skip` is 0. -/
def skipCount (l : MapDataLayer α) (rng : Nat) : Nat :=
  if l.data_param.rand_skip = 0 then 0 else rng % l.data_param.rand_skip

end MapDataLayer

/-- The shape `(channels, height, width)` of a tensor record. -/
def BlobProto.shape {α : Type} (b : BlobProto α) : Nat × Nat × Nat :=
  (b.channels, b.height, b.width)

/-- The store invariant of section 3 of the spec: every entry holds exactly
two tensors, data then label, of the data and label shapes found at setup,
each with all its values. -/
def Conforming {α : Type} (store : List (BlobProtoVector α)) (dshape lshape : Nat × Nat × Nat) :
    Prop :=
  ∀ r ∈ store, r.blobs.map BlobProto.shape = [dshape, lshape] ∧
    ∀ b ∈ r.blobs, b.data.length = b.channels * b.height * b.width

instance {α : Type} (store : List (BlobProtoVector α)) (dshape lshape : Nat × Nat × Nat) :
    Decidable (Conforming store dshape lshape) := by
  unfold Conforming; infer_instance

/-- The state of a batch blob and its one-sample scratch blob after setup for
batch size `B` and record shape `shape`. -/
def Blob.IsBatch {α : Type} (b scratch : Blob α) (B : Nat) (shape : Nat × Nat × Nat) : Prop :=
  (b.num = B ∧ b.channels = shape.1 ∧ b.height = shape.2.1 ∧ b.width = shape.2.2) ∧
  b.data.length = B * (shape.1 * shape.2.1 * shape.2.2) ∧
  (scratch.num = 1 ∧ scratch.channels = shape.1 ∧ scratch.height = shape.2.1 ∧
    scratch.width = shape.2.2)

/-- The state of a layer between fills: set up on `store` with configuration
`tp` and batch size `B`, the cursor on a record, the buffers shaped for records
of shapes `dshape` and `lshape`. -/
def MapDataLayer.Ready {α : Type} [CommRing α] (l : MapDataLayer α)
    (store : List (BlobProtoVector α)) (tp : TransformationParameter α) (B : Nat)
    (dshape lshape : Nat × Nat × Nat) : Prop :=
  l.data_param.batch_size = B ∧ l.data_transformer_ = tp ∧
  l.label_transformer_ = MapDataLayer.label_trans_param tp ∧
  l.iter_.db = store ∧ l.iter_.pos < store.length ∧
  l.prefetch_data_.IsBatch l.transformed_data_ B dshape ∧
  l.prefetch_label_.IsBatch l.transformed_label_ B lshape

/-- Slot `item_id` of a batch blob: the values of sample `item_id`. -/
def Blob.slot {α : Type} (b : Blob α) (item_id : Nat) : List α :=
  (b.data.drop (b.offset item_id 0 0 0)).take (b.countFrom 1)

/-! ## convert_frames (`tools/convert_frames.cpp`) -/

/-- The OpenCV image `cv::Mat` as `CVMatToBlobProto` reads it: `rows`, `cols`,
`channels()`, `depth()` and the rows of bytes that `ptr<uchar>(h)` points to,
each holding the pixels of one row with their channels interleaved. -/
structure Mat where
  rows : Nat
  cols : Nat
  channels : Nat
  depth : Nat
  data : List (List Nat)
deriving DecidableEq

/-- The OpenCV depth code of 8-bit unsigned images. -/
def CV_8U : Nat := 0

/-- The OpenCV accessor `cv_img.ptr<uchar>(h)`: row `h` of the image, none
when there is no such row. -/
def Mat.ptr (cv_img : Mat) (h : Nat) : Option (List Nat) := cv_img.data[h]?

/-- An image whose rows are all there, each with `cols * channels` bytes. -/
def Mat.WellFormed (cv_img : Mat) : Prop :=
  cv_img.data.length = cv_img.rows ∧
  ∀ row ∈ cv_img.data, row.length = cv_img.cols * cv_img.channels

instance (cv_img : Mat) : Decidable cv_img.WellFormed := by
  unfold Mat.WellFormed; infer_instance

/-- `CVMatToBlobProto`: the shape fields are set from the image, the data is
resized to `channels*height*width` zeros, and the three nested loops store
each byte, converted to float, at index `(c*height + h)*width + w`, reading
the bytes of a row in order. -/
def CVMatToBlobProto {α : Type} [CommRing α] (cv_img : Mat) (blob : BlobProto α) :
    Option (BlobProto α) :=
  if cv_img.depth ≠ CV_8U then none else
  let blob := { blob with channels := cv_img.channels }
  let blob := { blob with height := cv_img.rows }
  let blob := { blob with width := cv_img.cols }
  let blob := { blob with num := 1 }
  let blob := { blob with data := [] }
  let blob_channels := blob.channels
  let blob_height := blob.height
  let blob_width := blob.width
  let blob_size := blob_channels * blob_height * blob_width
  let blob := { blob with data := blob.data ++ List.replicate (blob_size - blob.data.length) 0 }
  forLoop blob_height (fun h blob => do
    let ptr ← cv_img.ptr h
    let img_index := 0
    let (blob, _) ← forLoop blob_width (fun w st =>
      forLoop blob_channels (fun c (st : BlobProto α × Nat) => do
        let (blob, img_index) := st
        let blob_index := (c * blob_height + h) * blob_width + w
        let px ← ptr[img_index]?
        let data ← writeAt blob.data blob_index (px : α)
        some ({ blob with data := data }, img_index + 1)) st) (blob, img_index)
    some blob) blob

/-- The byte of an image at row `h`, position `w * channels + c`, converted
to float: the value of channel `c` of the pixel at row `h` and column `w`. -/
def Mat.value {α : Type} [CommRing α] (cv_img : Mat) (c h w : Nat) : α :=
  (((cv_img.data.getD h []).getD (w * cv_img.channels + c) 0 : Nat) : α)

/-- The loop invariant of `CVMatToBlobProto` when the loops stand at row `h`,
column `w` and channel `c`: the shape fields are set, the data has its final
size, and every entry whose pixel value comes before `(h, w, c)` in the order
of the loops holds that value. -/
def Mat.Converted {α : Type} [CommRing α] (cv_img : Mat) (h w c : Nat) (blob : BlobProto α) :
    Prop :=
  (blob.num = 1 ∧ blob.channels = cv_img.channels ∧ blob.height = cv_img.rows ∧
    blob.width = cv_img.cols) ∧
  blob.data.length = cv_img.channels * cv_img.rows * cv_img.cols ∧
  ∀ c' h' w', c' < cv_img.channels → h' < cv_img.rows → w' < cv_img.cols →
    (h' < h ∨ (h' = h ∧ (w' < w ∨ (w' = w ∧ c' < c)))) →
    blob.data[(c' * cv_img.rows + h') * cv_img.cols + w']? = some (cv_img.value c' h' w')

/-- The index expression `(c * blob_height + h) * blob_width + w` that
`CVMatToBlobProto` stores channel `c` of the pixel at row `h`, column `w` at. -/
def blob_index (blob_height blob_width c h w : Nat) : Nat :=
  (c * blob_height + h) * blob_width + w

/-- The stores `blob->set_data(blob_index, value)` of `CVMatToBlobProto` in the
order of its loops, rows outermost, then columns, then channels: the index
and the value of each. -/
def Mat.writes {α : Type} [CommRing α] (cv_img : Mat) : List (Nat × α) :=
  (List.range cv_img.rows).flatMap (fun h =>
    (List.range cv_img.cols).flatMap (fun w =>
      (List.range cv_img.channels).map (fun c =>
        (blob_index cv_img.rows cv_img.cols c h w, cv_img.value c h w))))

/-- The indices that the loops of `CVMatToBlobProto` store at for an image of
`C` channels, `H` rows and `W` columns, in the order of the stores. -/
def writeIndices (C H W : Nat) : List Nat :=
  (List.range H).flatMap (fun h =>
    (List.range W).flatMap (fun w => (List.range C).map (fun c => blob_index H W c h w)))

/-- A sequence of stores `buf[index] = value` applied to a buffer in order. -/
def applyWrites {α : Type} (ws : List (Nat × α)) (buf : List α) : List α :=
  ws.foldl (fun d p => d.set p.1 p.2) buf

/-- The stores of `CVMatToBlobProto` that come before its loops stand at row
`h`, column `w` and channel `c`: those of the rows before `h`, of the columns
before `w` in row `h`, and of the channels before `c` of that pixel. -/
def Mat.writesBefore {α : Type} [CommRing α] (cv_img : Mat) (h w c : Nat) : List (Nat × α) :=
  (List.range h).flatMap (fun h' =>
    (List.range cv_img.cols).flatMap (fun w' =>
      (List.range cv_img.channels).map (fun c' =>
        (blob_index cv_img.rows cv_img.cols c' h' w', cv_img.value c' h' w'))))
  ++ (List.range w).flatMap (fun w' =>
      (List.range cv_img.channels).map (fun c' =>
        (blob_index cv_img.rows cv_img.cols c' h w', cv_img.value c' h w')))
  ++ (List.range c).map (fun c' =>
        (blob_index cv_img.rows cv_img.cols c' h w, cv_img.value c' h w))

/-! ## Shapes and partial fills -/

/-- The shape `(num, channels, height, width)` of a blob. -/
def Blob.shape {α : Type} (b : Blob α) : Nat × Nat × Nat × Nat :=
  (b.num, b.channels, b.height, b.width)

/-- The first `slots` iterations of the loop of `InternalThreadEntry`: the
state of a fill after that many slots of the batch. -/
def MapDataLayer.fillSlots {α : Type} [CommRing α] (slots : Nat) (l : MapDataLayer α) :
    Option (MapDataLayer α) :=
  forLoop slots (fun item_id l => do
    let maps ← l.iter_.value
    let dataMap := BlobProto2Datum (← maps.blobs[0]?)
    let labelMap := BlobProto2Datum (← maps.blobs[1]?)
    let offset := l.prefetch_data_.offset item_id 0 0 0
    let top_data ← DataTransformer.Transform l.data_transformer_ dataMap
      l.transformed_data_ l.prefetch_data_.data offset
    let label_offset := l.prefetch_label_.offset item_id 0 0 0
    let top_label ← DataTransformer.Transform l.label_transformer_ labelMap
      l.transformed_label_ l.prefetch_label_.data label_offset
    let iter_ := l.iter_.Next
    let iter_ := if !iter_.valid then iter_.SeekToFirst else iter_
    some { l with iter_ := iter_,
                  prefetch_data_ := { l.prefetch_data_ with data := top_data },
                  prefetch_label_ := { l.prefetch_label_ with data := top_label } }) l

/-! ## Reference planes of the PerspectiveLayer -/

section planes
variable {α : Type} [CommRing α]

/-- The slope-multiplier plane as the spec describes it: the row-index plane
scaled by `slope_mult`, entry `(r, c)` of the `H×W` plane being
`slope_mult * r`. -/
def slopePlane (slope_mult : α) (H W : Nat) : List α :=
  (List.range (H * W)).map (fun idx => slope_mult * ((idx / W : Nat) : α))

/-- The intercept-multiplier plane as the spec describes it: the all-ones
plane scaled by `intercept_mult`. -/
def interceptPlane (intercept_mult : α) (H W : Nat) : List α :=
  (List.range (H * W)).map (fun _ => intercept_mult * 1)

end planes

namespace PerspectiveLayer

/-- The members of a layer as `LayerSetUp` leaves them for a configuration
`p`, `N` samples and an `H×W` reference blob. -/
def IsSetUp {α : Type} [CommRing α] (l : PerspectiveLayer α) (p : PerspectiveParameter α)
    (N H W : Nat) : Prop :=
  l.perspective_param = p ∧ l.num_ = N ∧ l.height_ = H ∧ l.width_ = W ∧
  l.slope_multiplier_.data = slopePlane p.slope_mult H W ∧
  l.intercept_multiplier_.data = interceptPlane p.intercept_mult H W

end PerspectiveLayer

/-! ## Gradient checker -/

section checker
variable {α : Type}

/-- Modelled from the spec: the objective of the gradient check (sections 4.4
and 8), the sum over all output elements of the output gradient `g` times the
output value. -/
def objective [CommRing α] (g out : List α) : α :=
  ((List.range out.length).map (fun j => g.getD j 0 * out.getD j 0)).sum

/-- Modelled from the spec: the centred finite-difference estimate
`(f(x+ε) - f(x-ε)) / 2ε` of section 4.4, from the two objective values. -/
def centeredDifference [Field α] (fplus fminus eps : α) : α :=
  (fplus - fminus) / (2 * eps)

/-- Modelled from the spec: the checker's perturbation of one input element,
`x[n] += delta`. -/
def Blob.perturb [CommRing α] (b : Blob α) (n : Nat) (delta : α) : Blob α :=
  { b with data := b.data.set n (b.data.getD n 0 + delta) }

end checker

end caffe

/-! # Verification -/

namespace caffe

/-! ## Loops and buffers: basic facts -/

theorem forLoop_succ {σ : Type} (n : Nat) (body : Nat → σ → Option σ) (s : σ) :
    forLoop (n + 1) body s = (forLoop n body s).bind (body n) := rfl

/-- Invariant rule for counted loops: an invariant that holds initially and is
carried by every iteration (which then does not fail) holds at the end, and
the loop does not fail. -/
theorem forLoop_inv {σ : Type} (P : Nat → σ → Prop) (body : Nat → σ → Option σ)
    (n : Nat) (s : σ) (h0 : P 0 s)
    (hstep : ∀ k s, k < n → P k s → ∃ s', body k s = some s' ∧ P (k + 1) s') :
    ∃ s', forLoop n body s = some s' ∧ P n s' := by
  induction n with
  | zero => exact ⟨s, rfl, h0⟩
  | succ m ih =>
    obtain ⟨s1, hs1, hP1⟩ := ih (fun k s hk hP => hstep k s (Nat.lt_succ_of_lt hk) hP)
    obtain ⟨s2, hs2, hP2⟩ := hstep m s1 (Nat.lt_succ_self m) hP1
    exact ⟨s2, by rw [forLoop_succ, hs1]; exact hs2, hP2⟩

theorem sum_map_range_eq_finset_sum {α : Type} [AddCommMonoid α] (f : Nat → α) (n : Nat) :
    ((List.range n).map f).sum = ∑ i in Finset.range n, f i := by
  induction n with
  | zero => simp
  | succ m ih => simp [List.range_succ, Finset.sum_range_succ, ih]

theorem getD_map_range {α : Type} (f : Nat → α) (n i : Nat) (d : α) (h : i < n) :
    ((List.range n).map f).getD i d = f i := by
  simp [List.getD_eq_getElem?_getD, List.getElem?_map, List.getElem?_range h]

theorem Blob.length_resize {α : Type} [Zero α] (buf : List α) (cnt : Nat) :
    (Blob.resize buf cnt).length = cnt := by
  unfold Blob.resize
  split
  · simp; omega
  · simp

theorem forLoop_writeAt {α : Type} (f : Nat → α) (k : Nat) (buf : List α) (h : k ≤ buf.length) :
    forLoop k (fun i d => writeAt d i (f i)) buf = some ((List.range k).map f ++ buf.drop k) := by
  induction k with
  | zero => simp [forLoop]
  | succ m ih =>
    have hm : m < buf.length := h
    rw [forLoop_succ, ih (Nat.le_of_lt hm)]
    simp only [Option.some_bind, writeAt]
    have hlen : m < ((List.range m).map f ++ buf.drop m).length := by simp; omega
    rw [if_pos hlen]
    congr 1
    apply List.ext_getElem?
    intro j
    simp only [List.getElem?_set, List.getElem?_append, List.getElem?_map, List.length_map,
      List.length_range, List.getElem?_drop, List.getElem?_range, List.length_append, List.length_drop]
    by_cases h1 : j < m
    · have h2 : m ≠ j := by omega
      have h3 : j < m + 1 := by omega
      simp [h1, h2, h3, List.getElem?_range]
    · by_cases h4 : j = m
      · subst h4
        simp [List.getElem?_range]
        omega
      · have h5 : ¬ j < m + 1 := by omega
        have h6 : m ≠ j := by omega
        simp [h1, h5, h6]
        congr 1
        omega

section
variable {α : Type} [CommRing α]

theorem gemm_outer (H W : Nat) (alpha : α) (A B C : List α) (f : Nat → α)
    (hA : A.length = H) (hAf : ∀ i, i < H → A[i]? = some (f i))
    (hB : B = List.replicate W 1) (hC : C.length = H * W) :
    caffe_cpu_gemm H W 1 alpha A B 0 C
      = some ((List.range (H * W)).map (fun idx => alpha * f (idx / W))) := by
  unfold caffe_cpu_gemm
  have hcond : H * 1 ≤ A.length ∧ 1 * W ≤ B.length ∧ H * W ≤ C.length := by
    subst hB; simp [hC, hA]
  rw [if_pos hcond]
  have hdrop : C.drop (H * W) = [] := by
    apply List.drop_eq_nil_of_le; omega
  rw [hdrop, List.append_nil]
  congr 1
  apply List.map_congr_left
  intro idx hidx
  have hlt : idx < H * W := List.mem_range.mp hidx
  have hW : 0 < W := by
    rcases Nat.eq_zero_or_pos W with h | h
    · subst h; simp at hlt
    · exact h
  have hdiv : idx / W < H := by
    apply Nat.div_lt_of_lt_mul; rw [Nat.mul_comm]; exact hlt
  have hmod : idx % W < W := Nat.mod_lt _ hW
  subst hB
  have hr1 : List.range 1 = [0] := rfl
  simp [hr1, hAf _ hdiv, hmod]

omit [CommRing α] in
theorem Blob.resize_nil [Zero α] (cnt : Nat) :
    Blob.resize ([] : List α) cnt = List.replicate cnt 0 := by
  unfold Blob.resize
  split
  · have : cnt = 0 := by simpa using ‹cnt ≤ ([] : List α).length›
    subst this; rfl
  · rfl

theorem PerspectiveLayer.LayerSetUp_eq (l : PerspectiveLayer α) (b0 b1 b2 : Blob α)
    (top : List (Blob α)) (h0 : b0.countFrom 1 = 1) (h1 : b1.countFrom 1 = 1) :
    l.LayerSetUp [b0, b1, b2] top = some { l with
      num_ := b0.num, height_ := b2.height, width_ := b2.width, channels_ := 1,
      slope_multiplier_ :=
        { l.slope_multiplier_.Reshape 1 1 b2.height b2.width with
          data := slopePlane l.perspective_param.slope_mult b2.height b2.width },
      intercept_multiplier_ :=
        { l.intercept_multiplier_.Reshape 1 1 b2.height b2.width with
          data := interceptPlane l.perspective_param.intercept_mult b2.height b2.width } } := by
  have e1 : forLoop b2.height (fun i d => writeAt d i (i : α))
      (Blob.empty.Reshape 1 1 b2.height 1 : Blob α).data
      = some ((List.range b2.height).map (fun i : Nat => (i : α))) := by
    rw [forLoop_writeAt]
    · simp [Blob.Reshape, Blob.empty, Blob.resize_nil]
    · simp [Blob.Reshape, Blob.empty, Blob.resize_nil]
  have e2 : caffe_set b2.height (1 : α) (Blob.empty.Reshape 1 1 b2.height 1 : Blob α).data
      = some (List.replicate b2.height 1) := by
    simp [Blob.Reshape, Blob.empty, Blob.resize_nil, caffe_set]
  have e3 : caffe_set b2.width (1 : α) (Blob.empty.Reshape 1 1 1 b2.width : Blob α).data
      = some (List.replicate b2.width 1) := by
    simp [Blob.Reshape, Blob.empty, Blob.resize_nil, caffe_set]
  have e4 := gemm_outer b2.height b2.width l.perspective_param.slope_mult
    ((List.range b2.height).map (fun i : Nat => (i : α))) (List.replicate b2.width 1)
    (l.slope_multiplier_.Reshape 1 1 b2.height b2.width).data (fun i : Nat => (i : α))
    (by simp) (by intro i hi; simp [List.getElem?_range hi]) rfl
    (by simp [Blob.Reshape, Blob.length_resize])
  have e5 := gemm_outer b2.height b2.width l.perspective_param.intercept_mult
    (List.replicate b2.height 1) (List.replicate b2.width 1)
    (l.intercept_multiplier_.Reshape 1 1 b2.height b2.width).data (fun _ => (1 : α))
    (by simp) (by intro i hi; simp [List.getElem?_replicate, hi]) rfl
    (by simp [Blob.Reshape, Blob.length_resize])
  simp only [LayerSetUp, List.length_cons, List.length_nil]
  simp [h0, h1, e1, e2, e3, e4, e5, slopePlane, interceptPlane]


theorem caffe_cpu_axpby_spec (N : Nat) (a : α) (X : List α) (b : α) (Y : List α) (off : Nat)
    (hX : N ≤ X.length) (hY : off + N ≤ Y.length) :
    ∃ Y', caffe_cpu_axpby N a X b Y off = some Y' ∧ Y'.length = Y.length ∧
      (∀ j, j < off → Y'[j]? = Y[j]?) ∧
      (∀ i, i < N → Y'[off + i]? = some (a * X.getD i 0 + b * Y.getD (off + i) 0)) := by
  refine ⟨_, by rw [caffe_cpu_axpby, if_pos ⟨hX, hY⟩], ?_, ?_, ?_⟩
  · simp; omega
  · intro j hj
    have h1 : j < (List.take off Y).length := by simp; omega
    rw [List.append_assoc, List.getElem?_append_left h1, List.getElem?_take_of_lt hj]
  · intro i hi
    have h1 : (List.take off Y).length = off := by simp; omega
    rw [List.append_assoc, List.getElem?_append_right (by omega), h1]
    have h2 : off + i - off = i := by omega
    rw [h2, List.getElem?_append_left (by simpa using hi)]
    simp [List.getElem?_range hi]

omit [CommRing α] in
theorem getD_of_getElem? [Zero α] (l : List α) (i : Nat) (v : α) (h : l[i]? = some v) :
    l.getD i 0 = v := by
  simp [List.getD_eq_getElem?_getD, h]

omit [CommRing α] in
theorem getElem?_eq_some_getD [Zero α] (l : List α) (i : Nat) (h : i < l.length) :
    l[i]? = some (l.getD i 0) := by
  simp [List.getD_eq_getElem?_getD, List.getElem?_eq_getElem h]

theorem PerspectiveLayer.Forward_cpu_spec (l : PerspectiveLayer α) (b0 b1 b2 t0 : Blob α)
    (rest : List (Blob α)) (N H W : Nat)
    (hN : l.num_ = N) (hH : l.height_ = H) (hW : l.width_ = W)
    (hsm : l.slope_multiplier_.data = slopePlane l.perspective_param.slope_mult H W)
    (him : l.intercept_multiplier_.data = interceptPlane l.perspective_param.intercept_mult H W)
    (h0c : b0.channels = 1) (h0h : b0.height = 1) (h0w : b0.width = 1)
    (h1c : b1.channels = 1) (h1h : b1.height = 1) (h1w : b1.width = 1)
    (h0d : N ≤ b0.data.length) (h1d : N ≤ b1.data.length)
    (htc : t0.channels = 1) (hth : t0.height = H) (htw : t0.width = W)
    (htd : t0.data.length = N * (H * W)) :
    ∃ d, l.Forward_cpu [b0, b1, b2] (t0 :: rest) = some ({ t0 with data := d } :: rest) ∧
      d.length = N * (H * W) ∧
      ∀ n i, n < N → i < H * W → d[n * (H * W) + i]? =
        some (l.perspective_param.slope_mult * b0.data.getD n 0 * ((i / W : Nat) : α)
          + l.perspective_param.intercept_mult * b1.data.getD n 0) := by
  suffices h : ∃ top', l.Forward_cpu [b0, b1, b2] (t0 :: rest) = some top' ∧
      ∃ d, top' = { t0 with data := d } :: rest ∧ d.length = N * (H * W) ∧
        ∀ n i, n < N → i < H * W → d[n * (H * W) + i]? =
          some (l.perspective_param.slope_mult * b0.data.getD n 0 * ((i / W : Nat) : α)
            + l.perspective_param.intercept_mult * b1.data.getD n 0) by
    obtain ⟨top', h1, d, h2, h3, h4⟩ := h
    exact ⟨d, by rw [h1, h2], h3, h4⟩
  unfold Forward_cpu
  rw [hN]
  apply forLoop_inv
    (fun k (top : List (Blob α)) => ∃ d, top = { t0 with data := d } :: rest ∧
      d.length = N * (H * W) ∧
      ∀ n i, n < k → i < H * W → d[n * (H * W) + i]? =
        some (l.perspective_param.slope_mult * b0.data.getD n 0 * ((i / W : Nat) : α)
          + l.perspective_param.intercept_mult * b1.data.getD n 0))
  · exact ⟨t0.data, rfl, htd, by intro n i hn; omega⟩
  · rintro k top hk ⟨d, rfl, hd, hval⟩
    have hoff0 : b0.offset k 0 0 0 = k := by simp [Blob.offset, h0c, h0h, h0w]
    have hoff1 : b1.offset k 0 0 0 = k := by simp [Blob.offset, h1c, h1h, h1w]
    have hofft : Blob.offset { t0 with data := d } k 0 0 0 = k * (H * W) := by
      simp [Blob.offset, htc, hth, htw, Nat.mul_assoc]
    have hs := getElem?_eq_some_getD b0.data k (by omega)
    have hi := getElem?_eq_some_getD b1.data k (by omega)
    obtain ⟨sv, hsv⟩ : ∃ sv, b0.data.getD k 0 = sv := ⟨_, rfl⟩
    obtain ⟨iv, hiv⟩ : ∃ iv, b1.data.getD k 0 = iv := ⟨_, rfl⟩
    rw [hsv] at hs
    rw [hiv] at hi
    have hbound : k * (H * W) + H * W ≤ N * (H * W) := by
      have : (k + 1) * (H * W) ≤ N * (H * W) := Nat.mul_le_mul_right _ hk
      rw [Nat.add_mul, Nat.one_mul] at this; exact this
    obtain ⟨d1, e1, l1, u1, v1⟩ := caffe_cpu_axpby_spec (H * W) sv
      l.slope_multiplier_.data 0 d (k * (H * W)) (by rw [hsm]; simp [slopePlane])
      (by rw [hd]; exact hbound)
    obtain ⟨d2, e2, l2, u2, v2⟩ := caffe_cpu_axpby_spec (H * W) iv
      l.intercept_multiplier_.data 1 d1 (k * (H * W)) (by rw [him]; simp [interceptPlane])
      (by rw [l1, hd]; exact hbound)
    refine ⟨{ t0 with data := d2 } :: rest, ?_, d2, rfl, by rw [l2, l1, hd], ?_⟩
    · simp [hoff0, hoff1, hofft, hs, hi, hH, hW, e1, e2]
    · intro n i hn hi'
      rcases Nat.lt_succ_iff_lt_or_eq.mp hn with hlt | heq
      · have hidx : n * (H * W) + i < k * (H * W) := by
          have : (n + 1) * (H * W) ≤ k * (H * W) := Nat.mul_le_mul_right _ hlt
          rw [Nat.add_mul, Nat.one_mul] at this; omega
        rw [u2 _ hidx, u1 _ hidx]; exact hval n i hlt hi'
      · subst heq
        rw [v2 i hi', getD_of_getElem? _ _ _ (v1 i hi'), hsm, him, hsv, hiv]
        simp only [slopePlane, interceptPlane, getD_map_range _ _ _ _ hi']
        congr 1; ring

omit [CommRing α] in
theorem Blob.countFrom_one_eq (b : Blob α) (h : b.countFrom 1 = 1) :
    b.channels = 1 ∧ b.height = 1 ∧ b.width = 1 := by
  simp [Blob.countFrom] at h
  exact ⟨h.1, h.2.1, h.2.2⟩

omit [CommRing α] in
theorem Blob.length_data_of_scalar (b : Blob α) (h : b.countFrom 1 = 1) (hw : b.WellFormed) :
    b.data.length = b.num ∧ b.diff.length = b.num := by
  obtain ⟨hc, hh, hw'⟩ := Blob.countFrom_one_eq b h
  obtain ⟨h1, h2⟩ := hw
  simp [Blob.count, hc, hh, hw'] at h1 h2
  exact ⟨h1, h2⟩

omit [CommRing α] in
theorem Blob.Reshape_idem [Zero α] (b : Blob α) (n c h w : Nat) :
    (b.Reshape n c h w).Reshape n c h w = b.Reshape n c h w := by
  have key : ∀ buf : List α, ∀ cnt, Blob.resize (Blob.resize buf cnt) cnt = Blob.resize buf cnt := by
    intro buf cnt
    have hl := Blob.length_resize buf cnt
    conv_lhs => rw [Blob.resize]
    rw [if_pos (by omega), List.take_of_length_le (by omega)]
  simp [Blob.Reshape, key]

theorem plane_index (r c H W : Nat) (hr : r < H) (hc : c < W) :
    r * W + c < H * W ∧ (r * W + c) / W = r := by
  have hW : 0 < W := by omega
  constructor
  · have : (r + 1) * W ≤ H * W := Nat.mul_le_mul_right _ hr
    rw [Nat.add_mul, Nat.one_mul] at this; omega
  · rw [Nat.add_comm, Nat.add_mul_div_right _ _ hW, Nat.div_eq_of_lt hc, Nat.zero_add]

/-- SetUp followed by Forward on three bottoms that pass the checks, with
`bottom[1]` holding at least as many samples as `bottom[0]`: both succeed and
the output values are given in closed form. -/
theorem PerspectiveLayer.SetUp_Forward_spec (p : PerspectiveParameter α)
    (b0 b1 b2 t0 : Blob α) (rest : List (Blob α))
    (h0 : b0.countFrom 1 = 1) (h0w : b0.WellFormed)
    (h1 : b1.countFrom 1 = 1) (h1w : b1.WellFormed) (h1n : b0.num ≤ b1.num) :
    ∃ l t1 d, (create p).SetUp [b0, b1, b2] (t0 :: rest) = some (l, t1 :: rest) ∧
      l.Forward [b0, b1, b2] (t1 :: rest) = some ({ t1 with data := d } :: rest) ∧
      (t1.num = b0.num ∧ t1.channels = 1 ∧ t1.height = b2.height ∧ t1.width = b2.width) ∧
      d.length = b0.num * (b2.height * b2.width) ∧
      ∀ n i, n < b0.num → i < b2.height * b2.width → d[n * (b2.height * b2.width) + i]? =
        some (p.slope_mult * b0.data.getD n 0 * ((i / b2.width : Nat) : α)
          + p.intercept_mult * b1.data.getD n 0) := by
  obtain ⟨c0, hh0, w0⟩ := Blob.countFrom_one_eq b0 h0
  obtain ⟨c1, hh1, w1⟩ := Blob.countFrom_one_eq b1 h1
  have hl0 := (Blob.length_data_of_scalar b0 h0 h0w).1
  have hl1 := (Blob.length_data_of_scalar b1 h1 h1w).1
  have hsetup := LayerSetUp_eq (create p) b0 b1 b2 (t0 :: rest) h0 h1
  obtain ⟨l, hl⟩ : ∃ l, (create p).LayerSetUp [b0, b1, b2] (t0 :: rest) = some l := ⟨_, hsetup⟩
  have hlN : l.num_ = b0.num := by
    have := hsetup.symm.trans hl; simp at this; rw [← this]
  have hlH : l.height_ = b2.height := by
    have := hsetup.symm.trans hl; simp at this; rw [← this]
  have hlW : l.width_ = b2.width := by
    have := hsetup.symm.trans hl; simp at this; rw [← this]
  have hlp : l.perspective_param = p := by
    have := hsetup.symm.trans hl; simp at this; rw [← this]; rfl
  have hlsm : l.slope_multiplier_.data = slopePlane p.slope_mult b2.height b2.width := by
    have := hsetup.symm.trans hl; simp at this; rw [← this]; rfl
  have hlim : l.intercept_multiplier_.data = interceptPlane p.intercept_mult b2.height b2.width := by
    have := hsetup.symm.trans hl; simp at this; rw [← this]; rfl
  let t1 := t0.Reshape b0.num 1 b2.height b2.width
  have ht1len : t1.data.length = b0.num * (b2.height * b2.width) := by
    simp [t1, Blob.Reshape, Blob.length_resize, Nat.mul_assoc]
  obtain ⟨d, hf, hdl, hdv⟩ := Forward_cpu_spec l b0 b1 b2 t1 rest b0.num b2.height b2.width
    hlN hlH hlW (by rw [hlp]; exact hlsm) (by rw [hlp]; exact hlim) c0 hh0 w0 c1 hh1 w1
    (by omega) (by omega) rfl rfl rfl ht1len
  refine ⟨l, t1, d, ?_, ?_, ⟨rfl, rfl, rfl, rfl⟩, hdl, ?_⟩
  · simp [SetUp, hl, Reshape, hlN, hlH, hlW, t1]
  · simp only [Forward, Reshape, hlN, hlH, hlW]
    simp only [List.getElem?_cons_zero, List.set_cons_zero, Option.bind_eq_bind, Option.some_bind]
    rw [show t1.Reshape b0.num 1 b2.height b2.width = t1 from Blob.Reshape_idem _ _ _ _ _, hf]
  · rw [hlp] at hdv; exact hdv

omit [CommRing α] in
theorem list_eq_of_blocks (d : List α) (N K : Nat) (F : Nat → Nat → α)
    (hl : d.length = N * K)
    (hv : ∀ n i, n < N → i < K → d[n * K + i]? = some (F n i)) :
    d = (List.range (N * K)).map (fun j => F (j / K) (j % K)) := by
  apply List.ext_getElem?
  intro j
  by_cases hj : j < N * K
  · have hK : 0 < K := by
      rcases Nat.eq_zero_or_pos K with h | h
      · subst h; simp at hj
      · exact h
    have hn : j / K < N := by
      apply Nat.div_lt_of_lt_mul; rw [Nat.mul_comm]; exact hj
    have hi : j % K < K := Nat.mod_lt _ hK
    have hjeq : j / K * K + j % K = j := Nat.div_add_mod' j K
    have := hv _ _ hn hi
    rw [hjeq] at this
    rw [this]
    simp [List.getElem?_range hj]
  · have h1 : d[j]? = none := by
      apply List.getElem?_eq_none; omega
    rw [h1]
    symm
    apply List.getElem?_eq_none
    simp; omega

/-- C1: PerspectiveLayer forward, in exact arithmetic. For three bottoms that
pass the setup checks (slope `bottom[0]` and intercept `bottom[1]` hold one
element per sample, for the same number `N` of samples), `SetUp` followed by
`Forward` succeeds and the output element at `(n, 0, r, c)` is
`slope_mult * slope[n] * r + intercept_mult * intercept[n]` for all `n < N`,
`r < H`, `c < W`. The value mentions neither `c` nor the reference blob: the
output data is the same for every reference blob of the same height and
width, whatever its values, sample count and channels. With both multipliers
1 the value is `r * slope[n] + intercept[n]`. -/
theorem PerspectiveLayer.forward_plane (p : PerspectiveParameter α)
    (b0 b1 b2 t0 : Blob α) (rest : List (Blob α))
    (h0 : b0.countFrom 1 = 1) (h0w : b0.WellFormed)
    (h1 : b1.countFrom 1 = 1) (h1w : b1.WellFormed) (h1n : b1.num = b0.num) :
    ∃ l top out, (create p).SetUp [b0, b1, b2] (t0 :: rest) = some (l, top) ∧
      l.Forward [b0, b1, b2] top = some (out :: rest) ∧
      (∀ n r c, n < b0.num → r < b2.height → c < b2.width →
        out.data[out.offset n 0 r c]? =
          some (p.slope_mult * b0.data.getD n 0 * (r : α)
            + p.intercept_mult * b1.data.getD n 0)) ∧
      (p.slope_mult = 1 → p.intercept_mult = 1 →
        ∀ n r c, n < b0.num → r < b2.height → c < b2.width →
          out.data[out.offset n 0 r c]? =
            some ((r : α) * b0.data.getD n 0 + b1.data.getD n 0)) ∧
      (∀ (b2' t0' : Blob α) (rest' : List (Blob α)),
        b2'.height = b2.height → b2'.width = b2.width →
        ∃ l' top' out', (create p).SetUp [b0, b1, b2'] (t0' :: rest') = some (l', top') ∧
          l'.Forward [b0, b1, b2'] top' = some (out' :: rest') ∧ out'.data = out.data) := by
  obtain ⟨l, t1, d, hs, hf, ⟨hn, hc, hh, hw⟩, hdl, hdv⟩ :=
    SetUp_Forward_spec p b0 b1 b2 t0 rest h0 h0w h1 h1w (by omega)
  have hval : ∀ n r c, n < b0.num → r < b2.height → c < b2.width →
      d[Blob.offset { t1 with data := d } n 0 r c]? =
        some (p.slope_mult * b0.data.getD n 0 * (r : α)
          + p.intercept_mult * b1.data.getD n 0) := by
    intro n r c hn' hr hc'
    obtain ⟨hi, hdiv⟩ := plane_index r c b2.height b2.width hr hc'
    have hoff : Blob.offset { t1 with data := d } n 0 r c
        = n * (b2.height * b2.width) + (r * b2.width + c) := by
      simp only [Blob.offset, hc, hh, hw]; ring
    rw [hoff, hdv n _ hn' hi, hdiv]
  refine ⟨l, t1 :: rest, { t1 with data := d }, hs, hf, hval, ?_, ?_⟩
  · intro hsm him n r c hn' hr hc'
    have := hval n r c hn' hr hc'
    rw [hsm, him] at this
    rw [this]; congr 1; ring
  · intro b2' t0' rest' hh' hw'
    obtain ⟨l', t1', d', hs', hf', -, hdl', hdv'⟩ :=
      SetUp_Forward_spec p b0 b1 b2' t0' rest' h0 h0w h1 h1w (by omega)
    refine ⟨l', t1' :: rest', { t1' with data := d' }, hs', hf', ?_⟩
    rw [hh', hw'] at hdl' hdv'
    show d' = d
    rw [list_eq_of_blocks d' _ _ _ hdl' hdv', list_eq_of_blocks d _ _ _ hdl hdv]

/-- Witness for C1: two samples with slopes 3, 5 and intercepts 7, 11, a
`2×3×4×5` reference blob and multipliers 2 and 3; the element at
`(1, 0, 2, 3)` is `2*5*2 + 3*11 = 53`. -/
theorem PerspectiveLayer.forward_plane_witness :
    (Blob.countFrom (⟨2, 1, 1, 1, [3, 5], [0, 0]⟩ : Blob Int) 1 = 1 ∧
      Blob.WellFormed (⟨2, 1, 1, 1, [3, 5], [0, 0]⟩ : Blob Int) ∧
      Blob.countFrom (⟨2, 1, 1, 1, [7, 11], [0, 0]⟩ : Blob Int) 1 = 1 ∧
      Blob.WellFormed (⟨2, 1, 1, 1, [7, 11], [0, 0]⟩ : Blob Int)) ∧
    ∃ l top out, (create (⟨2, 3⟩ : PerspectiveParameter Int)).SetUp
        [⟨2, 1, 1, 1, [3, 5], [0, 0]⟩, ⟨2, 1, 1, 1, [7, 11], [0, 0]⟩, Blob.create 2 3 4 5]
        [Blob.empty] = some (l, top) ∧
      l.Forward [⟨2, 1, 1, 1, [3, 5], [0, 0]⟩, ⟨2, 1, 1, 1, [7, 11], [0, 0]⟩,
        Blob.create 2 3 4 5] top = some [out] ∧
      out.data[out.offset 1 0 2 3]? = some 53 := by
  refine ⟨by decide, ?_⟩
  obtain ⟨l, top, out, h1, h2, h3, -, -⟩ := forward_plane (⟨2, 3⟩ : PerspectiveParameter Int)
    ⟨2, 1, 1, 1, [3, 5], [0, 0]⟩ ⟨2, 1, 1, 1, [7, 11], [0, 0]⟩ (Blob.create 2 3 4 5)
    Blob.empty [] (by decide) (by decide) (by decide) (by decide) rfl
  exact ⟨l, top, out, h1, h2, by simpa using h3 1 2 3 (by decide) (by decide) (by decide)⟩

/-- C5: PerspectiveLayer output shape. For every three bottoms that pass the
setup checks, whatever the layer and the top blob held before, `SetUp`
(`LayerSetUp` then `Reshape`) succeeds and leaves `top[0]` with shape
`(N, 1, H, W)`: `N` the sample count of `bottom[0]`, exactly one channel
whatever the channels of the reference blob, `H` and `W` the height and width
of the reference blob `bottom[2]`; its buffers hold `N*1*H*W` elements. -/
theorem PerspectiveLayer.SetUp_top_shape (l0 : PerspectiveLayer α)
    (b0 b1 b2 t0 : Blob α) (rest : List (Blob α))
    (h0 : b0.countFrom 1 = 1) (h1 : b1.countFrom 1 = 1) :
    ∃ l out, l0.SetUp [b0, b1, b2] (t0 :: rest) = some (l, out :: rest) ∧
      out.num = b0.num ∧ out.channels = 1 ∧ out.height = b2.height ∧
      out.width = b2.width ∧ out.WellFormed := by
  obtain ⟨l, hl⟩ : ∃ l, l0.LayerSetUp [b0, b1, b2] (t0 :: rest) = some l :=
    ⟨_, LayerSetUp_eq l0 b0 b1 b2 (t0 :: rest) h0 h1⟩
  have hl' := (LayerSetUp_eq l0 b0 b1 b2 (t0 :: rest) h0 h1).symm.trans hl
  simp only [Option.some.injEq] at hl'
  refine ⟨l, t0.Reshape b0.num 1 b2.height b2.width, ?_, rfl, rfl, rfl, rfl, ?_⟩
  · simp [SetUp, hl, Reshape, ← hl']
  · simp [Blob.WellFormed, Blob.Reshape, Blob.length_resize, Blob.count]

/-- Witness for C5: the shapes of `TestSetUp`, bottoms `(2,1,1,1)`,
`(2,1,1,1)`, `(2,3,4,5)`, give a top of shape `(2,1,4,5)`. -/
theorem PerspectiveLayer.SetUp_top_shape_witness :
    ∃ l out, (create (⟨1, 1⟩ : PerspectiveParameter Int)).SetUp
        [Blob.create 2 1 1 1, Blob.create 2 1 1 1, Blob.create 2 3 4 5] [Blob.empty]
        = some (l, [out]) ∧
      (out.num, out.channels, out.height, out.width) = (2, 1, 4, 5) := by
  obtain ⟨l, out, h, hn, hc, hh, hw, -⟩ := SetUp_top_shape
    (create (⟨1, 1⟩ : PerspectiveParameter Int))
    (Blob.create 2 1 1 1) (Blob.create 2 1 1 1) (Blob.create 2 3 4 5) Blob.empty []
    (by decide) (by decide)
  exact ⟨l, out, h, by rw [hn, hc, hh, hw]; rfl⟩

theorem caffe_cpu_dot_spec (n : Nat) (x : List α) (off : Nat) (y : List α)
    (hx : off + n ≤ x.length) (hy : n ≤ y.length) :
    caffe_cpu_dot n x off y
      = some (∑ i in Finset.range n, x.getD (off + i) 0 * y.getD i 0) := by
  rw [caffe_cpu_dot, if_pos ⟨hx, hy⟩, sum_map_range_eq_finset_sum]

theorem sum_range_mul_eq_double {β : Type} [AddCommMonoid β] (f : Nat → β) (H W : Nat) :
    ∑ i in Finset.range (H * W), f i
      = ∑ r in Finset.range H, ∑ c in Finset.range W, f (r * W + c) := by
  induction H with
  | zero => simp
  | succ m ih =>
    rw [Nat.succ_mul, Finset.sum_range_add, ih, Finset.sum_range_succ]

/-- The inner product of plane `n` of a gradient buffer with the slope
plane, as a sum over rows and columns. -/
theorem dot_slopePlane (g : List α) (off H W : Nat) (sm : α) :
    ∑ i in Finset.range (H * W), g.getD (off + i) 0 * (slopePlane sm H W).getD i 0
      = sm * ∑ r in Finset.range H, ∑ c in Finset.range W,
          (r : α) * g.getD (off + (r * W + c)) 0 := by
  rw [sum_range_mul_eq_double, Finset.mul_sum]
  apply Finset.sum_congr rfl
  intro r hr
  rw [Finset.mul_sum]
  apply Finset.sum_congr rfl
  intro c hc
  obtain ⟨hi, hdiv⟩ := plane_index r c H W (Finset.mem_range.mp hr) (Finset.mem_range.mp hc)
  rw [slopePlane, getD_map_range _ _ _ _ hi, hdiv]
  ring

theorem dot_interceptPlane (g : List α) (off H W : Nat) (im : α) :
    ∑ i in Finset.range (H * W), g.getD (off + i) 0 * (interceptPlane im H W).getD i 0
      = im * ∑ r in Finset.range H, ∑ c in Finset.range W, g.getD (off + (r * W + c)) 0 := by
  rw [sum_range_mul_eq_double, Finset.mul_sum]
  apply Finset.sum_congr rfl
  intro r hr
  rw [Finset.mul_sum]
  apply Finset.sum_congr rfl
  intro c hc
  obtain ⟨hi, -⟩ := plane_index r c H W (Finset.mem_range.mp hr) (Finset.mem_range.mp hc)
  rw [interceptPlane, getD_map_range _ _ _ _ hi]
  ring

/-- Backward on a layer whose members are as `LayerSetUp` leaves them: it
succeeds when the gradient buffers are long enough, entry `n < N` of the two
bottom gradients becomes the inner product of plane `n` of the top gradient
with the respective multiplier plane, and nothing else changes. -/
theorem PerspectiveLayer.Backward_cpu_spec (l : PerspectiveLayer α) (b0 b1 b2 t0 : Blob α)
    (rest : List (Blob α)) (flags : List Bool) (N H W : Nat)
    (hN : l.num_ = N) (hH : l.height_ = H) (hW : l.width_ = W)
    (hsm : l.slope_multiplier_.data.length = H * W)
    (him : l.intercept_multiplier_.data.length = H * W)
    (h0d : N ≤ b0.diff.length) (h1d : N ≤ b1.diff.length)
    (htc : t0.channels = 1) (hth : t0.height = H) (htw : t0.width = W)
    (htd : N * (H * W) ≤ t0.diff.length) :
    ∃ d0 d1, l.Backward_cpu (t0 :: rest) flags [b0, b1, b2]
        = some [{ b0 with diff := d0 }, { b1 with diff := d1 }, b2] ∧
      d0.length = b0.diff.length ∧ d1.length = b1.diff.length ∧
      (∀ n, n < N → d0[n]? = some (∑ i in Finset.range (H * W),
        t0.diff.getD (n * (H * W) + i) 0 * l.slope_multiplier_.data.getD i 0)) ∧
      (∀ n, n < N → d1[n]? = some (∑ i in Finset.range (H * W),
        t0.diff.getD (n * (H * W) + i) 0 * l.intercept_multiplier_.data.getD i 0)) ∧
      (∀ j, N ≤ j → d0[j]? = b0.diff[j]?) ∧ (∀ j, N ≤ j → d1[j]? = b1.diff[j]?) := by
  suffices h : ∃ bottom', l.Backward_cpu (t0 :: rest) flags [b0, b1, b2] = some bottom' ∧
      ∃ d0 d1, bottom' = [{ b0 with diff := d0 }, { b1 with diff := d1 }, b2] ∧
      d0.length = b0.diff.length ∧ d1.length = b1.diff.length ∧
      (∀ n, n < N → d0[n]? = some (∑ i in Finset.range (H * W),
        t0.diff.getD (n * (H * W) + i) 0 * l.slope_multiplier_.data.getD i 0)) ∧
      (∀ n, n < N → d1[n]? = some (∑ i in Finset.range (H * W),
        t0.diff.getD (n * (H * W) + i) 0 * l.intercept_multiplier_.data.getD i 0)) ∧
      (∀ j, N ≤ j → d0[j]? = b0.diff[j]?) ∧ (∀ j, N ≤ j → d1[j]? = b1.diff[j]?) by
    obtain ⟨bottom', e, d0, d1, rfl, r⟩ := h
    exact ⟨d0, d1, e, r⟩
  unfold Backward_cpu
  rw [hN]
  apply forLoop_inv
    (fun k (bottom : List (Blob α)) => ∃ d0 d1,
      bottom = [{ b0 with diff := d0 }, { b1 with diff := d1 }, b2] ∧
      d0.length = b0.diff.length ∧ d1.length = b1.diff.length ∧
      (∀ n, n < k → d0[n]? = some (∑ i in Finset.range (H * W),
        t0.diff.getD (n * (H * W) + i) 0 * l.slope_multiplier_.data.getD i 0)) ∧
      (∀ n, n < k → d1[n]? = some (∑ i in Finset.range (H * W),
        t0.diff.getD (n * (H * W) + i) 0 * l.intercept_multiplier_.data.getD i 0)) ∧
      (∀ j, k ≤ j → d0[j]? = b0.diff[j]?) ∧ (∀ j, k ≤ j → d1[j]? = b1.diff[j]?))
  · exact ⟨b0.diff, b1.diff, rfl, rfl, rfl, by intro n hn; omega, by intro n hn; omega,
      fun _ _ => rfl, fun _ _ => rfl⟩
  · rintro k bottom hk ⟨d0, d1, rfl, l0, l1, v0, v1, u0, u1⟩
    have hofft : t0.offset k 0 0 0 = k * (H * W) := by
      simp [Blob.offset, htc, hth, htw, Nat.mul_assoc]
    have hbound : k * (H * W) + H * W ≤ t0.diff.length := by
      have : (k + 1) * (H * W) ≤ N * (H * W) := Nat.mul_le_mul_right _ hk
      rw [Nat.add_mul, Nat.one_mul] at this; omega
    have e0 := caffe_cpu_dot_spec (H * W) t0.diff (k * (H * W)) l.slope_multiplier_.data
      hbound (by omega)
    have e1 := caffe_cpu_dot_spec (H * W) t0.diff (k * (H * W)) l.intercept_multiplier_.data
      hbound (by omega)
    have hk0 : k < d0.length := by omega
    have hk1 : k < d1.length := by omega
    refine ⟨[{ b0 with diff := d0.set k (∑ i in Finset.range (H * W),
          t0.diff.getD (k * (H * W) + i) 0 * l.slope_multiplier_.data.getD i 0) },
        { b1 with diff := d1.set k (∑ i in Finset.range (H * W),
          t0.diff.getD (k * (H * W) + i) 0 * l.intercept_multiplier_.data.getD i 0) }, b2],
      ?_, _, _, rfl, by simpa using l0, by simpa using l1, ?_, ?_, ?_, ?_⟩
    · simp [hofft, hH, hW, e0, e1, writeAt, hk0, hk1]
    · intro n hn
      rcases Nat.lt_succ_iff_lt_or_eq.mp hn with hlt | heq
      · rw [List.getElem?_set_ne (by omega)]; exact v0 n hlt
      · subst heq; rw [List.getElem?_set_self hk0]
    · intro n hn
      rcases Nat.lt_succ_iff_lt_or_eq.mp hn with hlt | heq
      · rw [List.getElem?_set_ne (by omega)]; exact v1 n hlt
      · subst heq; rw [List.getElem?_set_self hk1]
    · intro j hj
      rw [List.getElem?_set_ne (by omega)]; exact u0 j (by omega)
    · intro j hj
      rw [List.getElem?_set_ne (by omega)]; exact u1 j (by omega)

theorem PerspectiveLayer.LayerSetUp_isSetUp (l0 : PerspectiveLayer α)
    (b0 b1 b2 : Blob α) (top : List (Blob α))
    (h0 : b0.countFrom 1 = 1) (h1 : b1.countFrom 1 = 1) :
    ∃ l, l0.LayerSetUp [b0, b1, b2] top = some l ∧
      l.IsSetUp l0.perspective_param b0.num b2.height b2.width :=
  ⟨_, LayerSetUp_eq l0 b0 b1 b2 top h0 h1, rfl, rfl, rfl, rfl, rfl, rfl⟩

theorem PerspectiveLayer.SetUp_isSetUp (p : PerspectiveParameter α)
    (b0 b1 b2 t0 : Blob α) (rest : List (Blob α))
    (h0 : b0.countFrom 1 = 1) (h1 : b1.countFrom 1 = 1) :
    ∃ l, (create p).SetUp [b0, b1, b2] (t0 :: rest)
        = some (l, t0.Reshape b0.num 1 b2.height b2.width :: rest) ∧
      l.IsSetUp p b0.num b2.height b2.width := by
  obtain ⟨l, hl, hs⟩ := LayerSetUp_isSetUp (create p) b0 b1 b2 (t0 :: rest) h0 h1
  refine ⟨l, ?_, hs⟩
  obtain ⟨-, hN, hH, hW, -, -⟩ := hs
  simp [SetUp, hl, Reshape, hN, hH, hW]

/-- Forward on a set-up layer, in closed form. -/
theorem PerspectiveLayer.Forward_closed (l : PerspectiveLayer α) (p : PerspectiveParameter α)
    (b0 b1 b2 t : Blob α) (rest : List (Blob α)) (N H W : Nat) (hl : l.IsSetUp p N H W)
    (h0 : b0.countFrom 1 = 1) (h0d : N ≤ b0.data.length)
    (h1 : b1.countFrom 1 = 1) (h1d : N ≤ b1.data.length) :
    l.Forward [b0, b1, b2] (t :: rest) = some ({ t.Reshape N 1 H W with
      data := (List.range (N * (H * W))).map (fun j =>
        p.slope_mult * b0.data.getD (j / (H * W)) 0 * ((j % (H * W) / W : Nat) : α)
          + p.intercept_mult * b1.data.getD (j / (H * W)) 0) } :: rest) := by
  obtain ⟨hp, hN, hH, hW, hsm, him⟩ := hl
  obtain ⟨c0, hh0, w0⟩ := Blob.countFrom_one_eq b0 h0
  obtain ⟨c1, hh1, w1⟩ := Blob.countFrom_one_eq b1 h1
  have htlen : (t.Reshape N 1 H W).data.length = N * (H * W) := by
    simp [Blob.Reshape, Blob.length_resize, Nat.mul_assoc]
  obtain ⟨d, hf, hdl, hdv⟩ := Forward_cpu_spec l b0 b1 b2 (t.Reshape N 1 H W) rest N H W
    hN hH hW (by rw [hp]; exact hsm) (by rw [hp]; exact him) c0 hh0 w0 c1 hh1 w1
    h0d h1d rfl rfl rfl htlen
  rw [hp] at hdv
  have hd := list_eq_of_blocks d N (H * W) (fun n i =>
    p.slope_mult * b0.data.getD n 0 * ((i / W : Nat) : α)
      + p.intercept_mult * b1.data.getD n 0) hdl hdv
  simp only [Forward, Reshape, hN, hH, hW]
  simp only [List.getElem?_cons_zero, List.set_cons_zero, Option.bind_eq_bind, Option.some_bind]
  rw [hf, hd]

/-- C3: PerspectiveLayer `Backward_cpu`, in exact arithmetic. On a layer set
up for bottoms of `N` scalars and an `H×W` reference blob, and for every top
blob of shape `(N, 1, H, W)` carrying an output gradient `g` in its `diff`,
`Backward_cpu` succeeds, whatever the flags and whatever the bottom gradients
held before; for every sample `n < N`, entry `n` of the gradient of
`bottom[0]` is the inner product of plane `n` of `g` with the slope-multiplier
plane, which is `slope_mult * Σ_{r,c} r * g[n,0,r,c]`, and entry `n` of the
gradient of `bottom[1]` is the inner product with the intercept-multiplier
plane, which is `intercept_mult * Σ_{r,c} g[n,0,r,c]`. -/
theorem PerspectiveLayer.backward_gradients (p : PerspectiveParameter α)
    (b0 b1 b2 t0 t : Blob α) (rest rest' : List (Blob α)) (flags : List Bool)
    (h0 : b0.countFrom 1 = 1) (h0w : b0.WellFormed)
    (h1 : b1.countFrom 1 = 1) (h1w : b1.WellFormed) (h1n : b1.num = b0.num)
    (htn : t.num = b0.num) (htc : t.channels = 1) (hth : t.height = b2.height)
    (htw : t.width = b2.width) (htwf : t.WellFormed) :
    ∃ l top b0' b1', (create p).SetUp [b0, b1, b2] (t0 :: rest) = some (l, top) ∧
      l.Backward_cpu (t :: rest') flags [b0, b1, b2] = some [b0', b1', b2] ∧
      ∀ n, n < b0.num →
        b0'.diff[n]? = some (∑ i in Finset.range (b2.height * b2.width),
          t.diff.getD (t.offset n 0 0 0 + i) 0 * l.slope_multiplier_.data.getD i 0) ∧
        b0'.diff[n]? = some (p.slope_mult * ∑ r in Finset.range b2.height,
          ∑ c in Finset.range b2.width, (r : α) * t.diff.getD (t.offset n 0 r c) 0) ∧
        b1'.diff[n]? = some (∑ i in Finset.range (b2.height * b2.width),
          t.diff.getD (t.offset n 0 0 0 + i) 0 * l.intercept_multiplier_.data.getD i 0) ∧
        b1'.diff[n]? = some (p.intercept_mult * ∑ r in Finset.range b2.height,
          ∑ c in Finset.range b2.width, t.diff.getD (t.offset n 0 r c) 0) := by
  obtain ⟨l, hs, hl⟩ := SetUp_isSetUp p b0 b1 b2 t0 rest h0 h1
  obtain ⟨hp, hN, hH, hW, hsm, him⟩ := hl
  have hl0 := (Blob.length_data_of_scalar b0 h0 h0w).2
  have hl1 := (Blob.length_data_of_scalar b1 h1 h1w).2
  have htd : b0.num * (b2.height * b2.width) ≤ t.diff.length := by
    rw [htwf.2, Blob.count, htn, htc, hth, htw, Nat.mul_one, Nat.mul_assoc]
  obtain ⟨d0, d1, hb, -, -, v0, v1, -, -⟩ := Backward_cpu_spec l b0 b1 b2 t rest' flags
    b0.num b2.height b2.width hN hH hW (by rw [hsm]; simp [slopePlane])
    (by rw [him]; simp [interceptPlane]) (by omega) (by omega) htc hth htw htd
  refine ⟨l, _, { b0 with diff := d0 }, { b1 with diff := d1 }, hs, hb, ?_⟩
  intro n hn
  have hoff0 : t.offset n 0 0 0 = n * (b2.height * b2.width) := by
    simp [Blob.offset, htc, hth, htw, Nat.mul_assoc]
  have hoff : ∀ r c, t.offset n 0 r c = n * (b2.height * b2.width) + (r * b2.width + c) := by
    intro r c; simp only [Blob.offset, htc, hth, htw]; ring
  refine ⟨?_, ?_, ?_, ?_⟩
  · rw [hoff0]; exact v0 n hn
  · show d0[n]? = _
    rw [v0 n hn, hsm, dot_slopePlane]; simp only [hoff]
  · rw [hoff0]; exact v1 n hn
  · show d1[n]? = _
    rw [v1 n hn, him, dot_interceptPlane]; simp only [hoff]

/-- Witness for C3: two samples, a `2×2` reference blob, multipliers 2 and 3
and the output gradient `1, …, 8`; for sample 1 the slope gradient is
`2 * (0*5 + 0*6 + 1*7 + 1*8) = 30` and the intercept gradient is
`3 * (5 + 6 + 7 + 8) = 78`, over the stale entries 9 and 8. -/
theorem PerspectiveLayer.backward_gradients_witness :
    ∃ l top b0' b1', (create (⟨2, 3⟩ : PerspectiveParameter Int)).SetUp
        [⟨2, 1, 1, 1, [3, 5], [9, 9]⟩, ⟨2, 1, 1, 1, [7, 11], [8, 8]⟩, Blob.create 1 1 2 2]
        [Blob.empty] = some (l, top) ∧
      l.Backward_cpu [⟨2, 1, 2, 2, [0, 0, 0, 0, 0, 0, 0, 0], [1, 2, 3, 4, 5, 6, 7, 8]⟩]
        [true, true, false]
        [⟨2, 1, 1, 1, [3, 5], [9, 9]⟩, ⟨2, 1, 1, 1, [7, 11], [8, 8]⟩, Blob.create 1 1 2 2]
        = some [b0', b1', Blob.create 1 1 2 2] ∧
      b0'.diff[1]? = some 30 ∧ b1'.diff[1]? = some 78 := by
  obtain ⟨l, top, b0', b1', h1, h2, h3⟩ := backward_gradients
    (⟨2, 3⟩ : PerspectiveParameter Int)
    ⟨2, 1, 1, 1, [3, 5], [9, 9]⟩ ⟨2, 1, 1, 1, [7, 11], [8, 8]⟩ (Blob.create 1 1 2 2)
    Blob.empty ⟨2, 1, 2, 2, [0, 0, 0, 0, 0, 0, 0, 0], [1, 2, 3, 4, 5, 6, 7, 8]⟩ [] []
    [true, true, false] (by decide) (by decide) (by decide) (by decide) rfl rfl rfl rfl rfl
    (by decide)
  obtain ⟨-, h4, -, h5⟩ := h3 1 (by decide)
  refine ⟨l, top, b0', b1', h1, h2, ?_, ?_⟩
  · rw [h4]; decide
  · rw [h5]; decide

theorem objective_map_range (g : List α) (M : Nat) (F : Nat → α) :
    objective g ((List.range M).map F) = ∑ j in Finset.range M, g.getD j 0 * F j := by
  rw [objective, sum_map_range_eq_finset_sum]
  simp only [List.length_map, List.length_range]
  apply Finset.sum_congr rfl
  intro j hj
  rw [getD_map_range _ _ _ _ (Finset.mem_range.mp hj)]

theorem block_div_mod (n i K : Nat) (hi : i < K) : (n * K + i) / K = n ∧ (n * K + i) % K = i := by
  have hK : 0 < K := by omega
  constructor
  · rw [Nat.add_comm, Nat.add_mul_div_right _ _ hK, Nat.div_eq_of_lt hi, Nat.zero_add]
  · rw [Nat.add_comm, Nat.add_mul_mod_self_right, Nat.mod_eq_of_lt hi]

/-- The difference of two objectives whose outputs differ only on the plane of
sample `n` is a sum over that plane. -/
theorem objective_sub (g : List α) (N K n : Nat) (hn : n < N) (u F G : Nat → α)
    (hFG : ∀ j, j < N * K → F j - G j = if j / K = n then u (j % K) else 0) :
    objective g ((List.range (N * K)).map F) - objective g ((List.range (N * K)).map G)
      = ∑ i in Finset.range K, g.getD (n * K + i) 0 * u i := by
  rw [objective_map_range, objective_map_range, ← Finset.sum_sub_distrib]
  have h1 : ∀ j ∈ Finset.range (N * K), g.getD j 0 * F j - g.getD j 0 * G j
      = g.getD j 0 * (if j / K = n then u (j % K) else 0) := by
    intro j hj
    rw [← mul_sub, hFG j (Finset.mem_range.mp hj)]
  rw [Finset.sum_congr rfl h1, sum_range_mul_eq_double]
  rw [Finset.sum_eq_single n]
  · apply Finset.sum_congr rfl
    intro i hi
    obtain ⟨hd, hm⟩ := block_div_mod n i K (Finset.mem_range.mp hi)
    rw [hd, hm, if_pos rfl]
  · intro m _ hmn
    apply Finset.sum_eq_zero
    intro i hi
    obtain ⟨hd, -⟩ := block_div_mod m i K (Finset.mem_range.mp hi)
    rw [hd, if_neg hmn, mul_zero]
  · intro h; exact absurd (Finset.mem_range.mpr hn) h

theorem Blob.perturb_getD (b : Blob α) (n m : Nat) (delta : α) (hn : n < b.data.length) :
    (b.perturb n delta).data.getD m 0 = b.data.getD m 0 + if m = n then delta else 0 := by
  simp only [Blob.perturb, List.getD_eq_getElem?_getD, List.getElem?_set]
  by_cases h : n = m
  · subst h; simp [hn]
  · have h' : ¬ m = n := fun e => h e.symm
    simp [h, h']

theorem Blob.perturb_shape (b : Blob α) (n : Nat) (delta : α) :
    (b.perturb n delta).countFrom 1 = b.countFrom 1 ∧
      (b.perturb n delta).data.length = b.data.length := by
  simp [Blob.perturb, Blob.countFrom]

end

section
variable {α : Type} [LinearOrderedField α]

/-- The centred estimate for a perturbation of `slope[n]` by `±eps`, on a
set-up layer, is the inner product of plane `n` of `g` with the slope plane. -/
theorem PerspectiveLayer.estimate_slope (l : PerspectiveLayer α) (p : PerspectiveParameter α)
    (b0 b1 b2 t : Blob α) (rest : List (Blob α)) (g : List α) (N H W n : Nat) (eps : α)
    (heps : eps ≠ 0) (hn : n < N) (hl : l.IsSetUp p N H W)
    (h0 : b0.countFrom 1 = 1) (h0d : N ≤ b0.data.length)
    (h1 : b1.countFrom 1 = 1) (h1d : N ≤ b1.data.length) :
    ∃ outP outM, l.Forward [b0.perturb n eps, b1, b2] (t :: rest) = some (outP :: rest) ∧
      l.Forward [b0.perturb n (-eps), b1, b2] (t :: rest) = some (outM :: rest) ∧
      centeredDifference (objective g outP.data) (objective g outM.data) eps
        = ∑ i in Finset.range (H * W),
            g.getD (n * (H * W) + i) 0 * (slopePlane p.slope_mult H W).getD i 0 := by
  have hP := Forward_closed l p (b0.perturb n eps) b1 b2 t rest N H W hl
    (by rw [(Blob.perturb_shape b0 n eps).1]; exact h0)
    (by rw [(Blob.perturb_shape b0 n eps).2]; exact h0d) h1 h1d
  have hM := Forward_closed l p (b0.perturb n (-eps)) b1 b2 t rest N H W hl
    (by rw [(Blob.perturb_shape b0 n (-eps)).1]; exact h0)
    (by rw [(Blob.perturb_shape b0 n (-eps)).2]; exact h0d) h1 h1d
  refine ⟨_, _, hP, hM, ?_⟩
  simp only [centeredDifference]
  rw [objective_sub g N (H * W) n hn
    (fun i => 2 * eps * (p.slope_mult * ((i / W : Nat) : α)))]
  · have h2 : (2 : α) * eps ≠ 0 := mul_ne_zero two_ne_zero heps
    rw [div_eq_iff h2, Finset.sum_mul]
    apply Finset.sum_congr rfl
    intro i hi
    rw [slopePlane, getD_map_range _ _ _ _ (Finset.mem_range.mp hi)]
    ring
  · intro j _
    rw [Blob.perturb_getD b0 n _ eps (by omega), Blob.perturb_getD b0 n _ (-eps) (by omega)]
    by_cases h : j / (H * W) = n
    · simp only [h, if_true]; ring
    · simp only [h, if_false]; ring

/-- The centred estimate for a perturbation of `intercept[n]` by `±eps`, on a
set-up layer, is the inner product of plane `n` of `g` with the intercept
plane. -/
theorem PerspectiveLayer.estimate_intercept (l : PerspectiveLayer α)
    (p : PerspectiveParameter α)
    (b0 b1 b2 t : Blob α) (rest : List (Blob α)) (g : List α) (N H W n : Nat) (eps : α)
    (heps : eps ≠ 0) (hn : n < N) (hl : l.IsSetUp p N H W)
    (h0 : b0.countFrom 1 = 1) (h0d : N ≤ b0.data.length)
    (h1 : b1.countFrom 1 = 1) (h1d : N ≤ b1.data.length) :
    ∃ outP outM, l.Forward [b0, b1.perturb n eps, b2] (t :: rest) = some (outP :: rest) ∧
      l.Forward [b0, b1.perturb n (-eps), b2] (t :: rest) = some (outM :: rest) ∧
      centeredDifference (objective g outP.data) (objective g outM.data) eps
        = ∑ i in Finset.range (H * W),
            g.getD (n * (H * W) + i) 0 * (interceptPlane p.intercept_mult H W).getD i 0 := by
  have hP := Forward_closed l p b0 (b1.perturb n eps) b2 t rest N H W hl h0 h0d
    (by rw [(Blob.perturb_shape b1 n eps).1]; exact h1)
    (by rw [(Blob.perturb_shape b1 n eps).2]; exact h1d)
  have hM := Forward_closed l p b0 (b1.perturb n (-eps)) b2 t rest N H W hl h0 h0d
    (by rw [(Blob.perturb_shape b1 n (-eps)).1]; exact h1)
    (by rw [(Blob.perturb_shape b1 n (-eps)).2]; exact h1d)
  refine ⟨_, _, hP, hM, ?_⟩
  simp only [centeredDifference]
  rw [objective_sub g N (H * W) n hn (fun _ => 2 * eps * (p.intercept_mult * 1))]
  · have h2 : (2 : α) * eps ≠ 0 := mul_ne_zero two_ne_zero heps
    rw [div_eq_iff h2, Finset.sum_mul]
    apply Finset.sum_congr rfl
    intro i hi
    rw [interceptPlane, getD_map_range _ _ _ _ (Finset.mem_range.mp hi)]
    ring
  · intro j _
    rw [Blob.perturb_getD b1 n _ eps (by omega), Blob.perturb_getD b1 n _ (-eps) (by omega)]
    by_cases h : j / (H * W) = n
    · simp only [h, if_true]; ring
    · simp only [h, if_false]; ring

/-- C4: gradient-checker round trip for the PerspectiveLayer, in exact
arithmetic. For every step `eps ≠ 0`, every sample `n < N`, every input point
(bottoms of `N` scalars, any reference blob) and every output gradient `g`
(the `diff` of a top blob of shape `(N, 1, H, W)`): the four perturbed forward
passes and `Backward_cpu` succeed, the centred finite-difference estimate
`(L(x + eps) - L(x - eps)) / (2 * eps)` of `L = Σ g * Forward(output)` with
respect to `slope[n]` is exactly the entry that `Backward_cpu` writes into the
gradient of `bottom[0]` at `n`, likewise for `intercept[n]` and `bottom[1]`,
and so both agree within every non-negative tolerance. -/
theorem PerspectiveLayer.gradient_check_exact (p : PerspectiveParameter α)
    (b0 b1 b2 t0 t : Blob α) (rest rest' : List (Blob α)) (flags : List Bool)
    (eps : α) (n : Nat) (heps : eps ≠ 0) (hn : n < b0.num)
    (h0 : b0.countFrom 1 = 1) (h0w : b0.WellFormed)
    (h1 : b1.countFrom 1 = 1) (h1w : b1.WellFormed) (h1n : b1.num = b0.num)
    (htn : t.num = b0.num) (htc : t.channels = 1) (hth : t.height = b2.height)
    (htw : t.width = b2.width) (htwf : t.WellFormed) :
    ∃ l top b0' b1' sP sM iP iM gs gi,
      (create p).SetUp [b0, b1, b2] (t0 :: rest) = some (l, top) ∧
      l.Backward_cpu (t :: rest') flags [b0, b1, b2] = some [b0', b1', b2] ∧
      l.Forward [b0.perturb n eps, b1, b2] top = some (sP :: rest) ∧
      l.Forward [b0.perturb n (-eps), b1, b2] top = some (sM :: rest) ∧
      l.Forward [b0, b1.perturb n eps, b2] top = some (iP :: rest) ∧
      l.Forward [b0, b1.perturb n (-eps), b2] top = some (iM :: rest) ∧
      b0'.diff[n]? = some gs ∧ b1'.diff[n]? = some gi ∧
      centeredDifference (objective t.diff sP.data) (objective t.diff sM.data) eps = gs ∧
      centeredDifference (objective t.diff iP.data) (objective t.diff iM.data) eps = gi ∧
      ∀ tol : α, 0 ≤ tol →
        |centeredDifference (objective t.diff sP.data) (objective t.diff sM.data) eps - gs|
          ≤ tol ∧
        |centeredDifference (objective t.diff iP.data) (objective t.diff iM.data) eps - gi|
          ≤ tol := by
  obtain ⟨l, hs, hl⟩ := SetUp_isSetUp p b0 b1 b2 t0 rest h0 h1
  have hl' := hl
  obtain ⟨hp, hN, hH, hW, hsm, him⟩ := hl'
  have hd0 := Blob.length_data_of_scalar b0 h0 h0w
  have hd1 := Blob.length_data_of_scalar b1 h1 h1w
  have htd : b0.num * (b2.height * b2.width) ≤ t.diff.length := by
    rw [htwf.2, Blob.count, htn, htc, hth, htw, Nat.mul_one, Nat.mul_assoc]
  obtain ⟨d0, d1, hb, -, -, v0, v1, -, -⟩ := Backward_cpu_spec l b0 b1 b2 t rest' flags
    b0.num b2.height b2.width hN hH hW (by rw [hsm]; simp [slopePlane])
    (by rw [him]; simp [interceptPlane]) (by omega) (by omega) htc hth htw htd
  obtain ⟨sP, sM, hsP, hsM, es⟩ := estimate_slope l p b0 b1 b2
    (t0.Reshape b0.num 1 b2.height b2.width) rest t.diff b0.num b2.height b2.width n eps
    heps hn hl h0 (by omega) h1 (by omega)
  obtain ⟨iP, iM, hiP, hiM, ei⟩ := estimate_intercept l p b0 b1 b2
    (t0.Reshape b0.num 1 b2.height b2.width) rest t.diff b0.num b2.height b2.width n eps
    heps hn hl h0 (by omega) h1 (by omega)
  rw [← hsm] at es
  rw [← him] at ei
  refine ⟨l, _, { b0 with diff := d0 }, { b1 with diff := d1 }, sP, sM, iP, iM, _, _,
    hs, hb, hsP, hsM, hiP, hiM, v0 n hn, v1 n hn, es, ei, ?_⟩
  intro tol htol
  rw [es, ei, sub_self, sub_self, abs_zero]
  exact ⟨htol, htol⟩

/-- Witness for C4: over the rationals, step `1/100` (the step of
`TestGradient`), sample 1 of two, a `2×2` reference blob, multipliers `1/10`
and `1/5` (those of `TestGradientWithMult`) and output gradient `1, …, 8`. -/
theorem PerspectiveLayer.gradient_check_exact_witness :
    ∃ l top b0' b1' sP sM gs,
      (create (⟨1 / 10, 1 / 5⟩ : PerspectiveParameter ℚ)).SetUp
        [⟨2, 1, 1, 1, [3, 5], [9, 9]⟩, ⟨2, 1, 1, 1, [7, 11], [8, 8]⟩, Blob.create 1 1 2 2]
        [Blob.empty] = some (l, top) ∧
      l.Backward_cpu [⟨2, 1, 2, 2, [0, 0, 0, 0, 0, 0, 0, 0], [1, 2, 3, 4, 5, 6, 7, 8]⟩] []
        [⟨2, 1, 1, 1, [3, 5], [9, 9]⟩, ⟨2, 1, 1, 1, [7, 11], [8, 8]⟩, Blob.create 1 1 2 2]
        = some [b0', b1', Blob.create 1 1 2 2] ∧
      l.Forward [Blob.perturb ⟨2, 1, 1, 1, [3, 5], [9, 9]⟩ 1 (1 / 100),
        ⟨2, 1, 1, 1, [7, 11], [8, 8]⟩, Blob.create 1 1 2 2] top = some [sP] ∧
      l.Forward [Blob.perturb ⟨2, 1, 1, 1, [3, 5], [9, 9]⟩ 1 (-(1 / 100)),
        ⟨2, 1, 1, 1, [7, 11], [8, 8]⟩, Blob.create 1 1 2 2] top = some [sM] ∧
      b0'.diff[1]? = some gs ∧
      centeredDifference (objective [1, 2, 3, 4, 5, 6, 7, 8] sP.data)
        (objective [1, 2, 3, 4, 5, 6, 7, 8] sM.data) (1 / 100) = gs := by
  obtain ⟨l, top, b0', b1', sP, sM, -, -, gs, -, h1, h2, h3, h4, -, -, h5, -, h6, -⟩ :=
    gradient_check_exact (⟨1 / 10, 1 / 5⟩ : PerspectiveParameter ℚ)
      ⟨2, 1, 1, 1, [3, 5], [9, 9]⟩ ⟨2, 1, 1, 1, [7, 11], [8, 8]⟩ (Blob.create 1 1 2 2)
      Blob.empty ⟨2, 1, 2, 2, [0, 0, 0, 0, 0, 0, 0, 0], [1, 2, 3, 4, 5, 6, 7, 8]⟩ [] [] []
      (1 / 100) 1 (by norm_num) (by decide) (by decide) (by decide) (by decide) (by decide)
      rfl rfl rfl rfl rfl (by decide)
  exact ⟨l, top, b0', b1', sP, sM, gs, h1, h2, h3, h4, h5, h6⟩

end

section
variable {α : Type} [CommRing α]

/-- C9: `PerspectiveLayer::LayerSetUp` precondition checks. Setup fails if and
only if the number of bottoms is not exactly 3, or `bottom[0]` (slope) does
not hold exactly one element per sample, or `bottom[1]` (intercept) does not
hold exactly one element per sample; and when it fails, `SetUp` fails as a
whole: there is no layer state and no reshaped top. -/
theorem PerspectiveLayer.LayerSetUp_fails_iff (l : PerspectiveLayer α)
    (bottom top : List (Blob α)) :
    (l.LayerSetUp bottom top = none ↔
      (bottom.length ≠ 3 ∨ (∃ b, bottom[0]? = some b ∧ b.countFrom 1 ≠ 1) ∨
        (∃ b, bottom[1]? = some b ∧ b.countFrom 1 ≠ 1))) ∧
    (l.LayerSetUp bottom top = none → l.SetUp bottom top = none) := by
  refine ⟨?_, fun h => by simp [SetUp, h]⟩
  by_cases hlen : bottom.length = 3
  · obtain ⟨b0, b1, b2, rfl⟩ : ∃ b0 b1 b2, bottom = [b0, b1, b2] := by
      match bottom, hlen with
      | [b0, b1, b2], _ => exact ⟨b0, b1, b2, rfl⟩
    by_cases h0 : b0.countFrom 1 = 1
    · by_cases h1 : b1.countFrom 1 = 1
      · rw [LayerSetUp_eq l b0 b1 b2 top h0 h1]
        simp [h0, h1]
      · simp [LayerSetUp, h0, h1]
    · simp [LayerSetUp, h0]
  · simp [LayerSetUp, hlen]

/-- C10, evaluated at the failing input: bottoms of shapes `(2,1,1,1)`,
`(1,1,1,1)` and `(1,1,1,1)` pass `SetUp`, yet `Forward` fails: in the second
iteration `Forward_cpu` reads the intercept at `offset(1) = 1`, outside the
one-element buffer of `bottom[1]`. -/
theorem PerspectiveLayer.forward_reads_intercept_out_of_bounds :
    ∃ l top, (create (⟨1, 1⟩ : PerspectiveParameter Int)).SetUp
        [Blob.create 2 1 1 1, Blob.create 1 1 1 1, Blob.create 1 1 1 1] [Blob.empty]
        = some (l, top) ∧
      l.Forward [Blob.create 2 1 1 1, Blob.create 1 1 1 1, Blob.create 1 1 1 1] top = none ∧
      (Blob.create 1 1 1 1 : Blob Int).data[(Blob.create 1 1 1 1 : Blob Int).offset 1 0 0 0]?
        = none ∧
      (Blob.create 2 1 1 1 : Blob Int).countFrom 1 = 1 ∧
      (Blob.create 1 1 1 1 : Blob Int).countFrom 1 = 1 := by
  refine ⟨_, _, rfl, ?_, ?_, ?_, ?_⟩ <;> decide

/-- C7: `MapDataLayer::label_trans_param`. For every data transformation
configuration `t`, the label configuration has scale exactly 1 and no mean
file, whatever scale and mean file `t` carries, and its crop size and mirror
flag are those of `t`; so it asks for a crop or for mirroring only if `t`
does. It is the configuration with exactly these four fields. -/
theorem MapDataLayer.label_trans_param_forced (t : TransformationParameter α) :
    (label_trans_param t).scale = 1 ∧
    (label_trans_param t).mean_file = none ∧
    (label_trans_param t).crop_size = t.crop_size ∧
    (label_trans_param t).mirror = t.mirror ∧
    ((label_trans_param t).crop_size ≠ 0 → t.crop_size ≠ 0) ∧
    ((label_trans_param t).mirror = true → t.mirror = true) ∧
    label_trans_param t
      = { scale := 1, mirror := t.mirror, crop_size := t.crop_size, mean_file := none } :=
  ⟨rfl, rfl, rfl, rfl, fun h => h, fun h => h, rfl⟩

omit [CommRing α] in
theorem MapDataLayer.skipLoop_pos (k : Nat) (it : Cursor α) :
    skipLoop k it = { it with pos := it.pos + k } := by
  induction k generalizing it with
  | zero => rfl
  | succ m ih => rw [skipLoop, ih]; simp [Cursor.Next]; omega

omit [CommRing α] in
/-- The cursor that `DataLayerSetUp` reads from: on the store, `skipCount`
entries after the first. -/
theorem MapDataLayer.setup_cursor (l : MapDataLayer α) (store : List (BlobProtoVector α))
    (rng : Nat) :
    (if l.data_param.rand_skip ≠ 0 then
        skipLoop (rng % l.data_param.rand_skip) (Cursor.NewCursor store)
      else Cursor.NewCursor store) = ⟨store, l.skipCount rng⟩ := by
  unfold skipCount
  by_cases h : l.data_param.rand_skip = 0
  · simp [h, Cursor.NewCursor]
  · simp [h, skipLoop_pos, Cursor.NewCursor]

/-- C8: `MapDataLayer::DataLayerSetUp` configuration errors. With the two top
blobs in place, setup fails if and only if the record under the cursor (the
store entry after the skipped ones) does not hold exactly two tensors, which
includes a cursor with no record under it, or the configured crop size is not
0, or the mirror flag is set; in every other case it succeeds. -/
theorem MapDataLayer.DataLayerSetUp_fails_iff (l : MapDataLayer α)
    (store : List (BlobProtoVector α)) (rng : Nat) (bottom : List (Blob α))
    (t0 t1 : Blob α) (rest : List (Blob α)) :
    (l.DataLayerSetUp store rng bottom (t0 :: t1 :: rest) = none ↔
      ((∀ r, store[l.skipCount rng]? = some r → r.blobs.length ≠ 2) ∨
        l.transform_param.crop_size ≠ 0 ∨ l.transform_param.mirror = true)) ∧
    ((∃ r, store[l.skipCount rng]? = some r ∧ r.blobs.length = 2) →
      l.transform_param.crop_size = 0 → l.transform_param.mirror = false →
      ∃ l' top', l.DataLayerSetUp store rng bottom (t0 :: t1 :: rest) = some (l', top')) := by
  have key : l.DataLayerSetUp store rng bottom (t0 :: t1 :: rest) = none ↔
      ((∀ r, store[l.skipCount rng]? = some r → r.blobs.length ≠ 2) ∨
        l.transform_param.crop_size ≠ 0 ∨ l.transform_param.mirror = true) := by
    unfold DataLayerSetUp
    simp only [setup_cursor, Cursor.value]
    rcases hv : store[l.skipCount rng]? with _ | r
    · simp
    · by_cases h2 : r.blobs.length = 2
      · obtain ⟨d, lab, hr⟩ : ∃ d lab, r.blobs = [d, lab] := by
          match hb : r.blobs, h2 with
          | [d, lab], _ => exact ⟨d, lab, rfl⟩
        by_cases hc : l.transform_param.crop_size = 0
        · by_cases hm : l.transform_param.mirror = true
          · simp [hr, hc, hm]
          · simp [hr, hc, hm]
        · simp [hr, hc]
      · simp [h2]
  refine ⟨key, ?_⟩
  rintro ⟨r, hr, h2⟩ hc hm
  have hne : l.DataLayerSetUp store rng bottom (t0 :: t1 :: rest) ≠ none := by
    rw [Ne, key]
    rintro (h | h | h)
    · exact h r hr h2
    · exact h hc
    · rw [hm] at h; exact Bool.false_ne_true h
  obtain ⟨⟨l', top'⟩, h⟩ := Option.ne_none_iff_exists'.mp hne
  exact ⟨l', top', h⟩

end

section
variable {α : Type}

/-- Storing a block inside a buffer keeps the length. -/
theorem splice_length (d new : List α) (off n : Nat) (hn : new.length = n)
    (h : off + n ≤ d.length) :
    (d.take off ++ new ++ d.drop (off + n)).length = d.length := by
  simp; omega

/-- A block stored at `off` is read back from `off`. -/
theorem splice_at (d new : List α) (off n : Nat) (hn : new.length = n) (h : off ≤ d.length)
    (rest : List α) :
    ((d.take off ++ new ++ rest).drop off).take n = new := by
  have h1 : (d.take off).length = off := by simp; omega
  rw [List.append_assoc, List.drop_append_eq_append_drop, h1, Nat.sub_self,
    List.drop_of_length_le (by omega)]
  simp [← hn]

/-- A block that ends before `off` is not touched by a store at `off`. -/
theorem splice_before (d tail : List α) (off a n : Nat) (h : a + n ≤ off)
    (hoff : off ≤ d.length) :
    ((d.take off ++ tail).drop a).take n = (d.drop a).take n := by
  apply List.ext_getElem?
  intro i
  simp only [List.getElem?_take, List.getElem?_drop]
  by_cases hi : i < n
  · simp only [hi, if_true]
    rw [List.getElem?_append_left (by simp; omega), List.getElem?_take_of_lt (by omega)]
  · simp [hi]

end

section
variable {α : Type} [CommRing α]

theorem DataTransformer.length_values (param : TransformationParameter α) (datum : Datum α) :
    (DataTransformer.values param datum).length
      = datum.channels * datum.height * datum.width := by
  simp [DataTransformer.values]

theorem DataTransformer.Transform_eq (param : TransformationParameter α) (datum : Datum α)
    (tb : Blob α) (buf : List α) (off : Nat)
    (hc : param.crop_size = 0) (hm : param.mirror = false)
    (hshape : tb.channels = datum.channels ∧ tb.height = datum.height ∧
      tb.width = datum.width ∧ tb.num = 1)
    (hdata : datum.channels * datum.height * datum.width ≤ datum.float_data.length)
    (hbuf : off + datum.channels * datum.height * datum.width ≤ buf.length)
    (hmean : ∀ mean, param.mean_file = some mean →
      mean.length = datum.channels * datum.height * datum.width) :
    DataTransformer.Transform param datum tb buf off
      = some (buf.take off ++ DataTransformer.values param datum
          ++ buf.drop (off + datum.channels * datum.height * datum.width)) := by
  obtain ⟨h1, h2, h3, h4⟩ := hshape
  unfold DataTransformer.Transform
  have hno : ¬ ∃ mean, param.mean_file = some mean ∧
      mean.length ≠ datum.channels * datum.height * datum.width := by
    rintro ⟨mean, hm1, hm2⟩; exact hm2 (hmean mean hm1)
  simp only [hc, hm, h1, h2, h3, h4]
  rw [if_neg (by simp), if_neg (by simp), if_neg (by omega), if_neg hno]

/-- The label configuration leaves the values of a full record as they are. -/
theorem DataTransformer.values_label (tp : TransformationParameter α) (b : BlobProto α)
    (hfull : b.data.length = b.channels * b.height * b.width) :
    DataTransformer.values (MapDataLayer.label_trans_param tp) (BlobProto2Datum b) = b.data := by
  apply List.ext_getElem?
  intro i
  simp only [DataTransformer.values, MapDataLayer.label_trans_param, BlobProto2Datum,
    List.getElem?_map]
  by_cases hi : i < b.channels * b.height * b.width
  · rw [List.getElem?_range hi]
    simp only [Option.map_some', mul_one]
    rw [getElem?_eq_some_getD b.data i (by omega)]
  · rw [List.getElem?_eq_none (by simp; omega), List.getElem?_eq_none (by omega)]
    rfl

omit [CommRing α] in
theorem Blob.slot_eq (b : Blob α) (j : Nat) :
    b.slot j = (b.data.drop (j * (b.channels * b.height * b.width))).take
      (b.channels * b.height * b.width) := by
  simp [Blob.slot, Blob.offset, Blob.countFrom, Nat.mul_assoc]

omit [CommRing α] in
theorem Conforming.record {store : List (BlobProtoVector α)} {dshape lshape : Nat × Nat × Nat}
    (h : Conforming store dshape lshape) (i : Nat) (hi : i < store.length) :
    ∃ d lab, store[i]? = some ⟨[d, lab]⟩ ∧ d.shape = dshape ∧ lab.shape = lshape ∧
      d.data.length = d.channels * d.height * d.width ∧
      lab.data.length = lab.channels * lab.height * lab.width := by
  obtain ⟨hs, hf⟩ := h store[i] (List.getElem_mem hi)
  rcases hr : store[i] with ⟨blobs⟩
  rw [hr] at hs hf
  match blobs, hs with
  | [d, lab], hs =>
    simp at hs
    refine ⟨d, lab, ?_, hs.1, hs.2, hf d (by simp), hf lab (by simp)⟩
    rw [List.getElem?_eq_getElem hi, hr]

/-- One record transformed into slot `k` of a batch blob: the call succeeds,
slot `k` holds the transformed values and the earlier slots are unchanged. -/
theorem Blob.IsBatch.transform_step {b scratch : Blob α} {B : Nat} {shape : Nat × Nat × Nat}
    (hb : b.IsBatch scratch B shape) (param : TransformationParameter α) (datum : Datum α)
    (k : Nat) (hk : k < B)
    (hshape : (datum.channels, datum.height, datum.width) = shape)
    (hfull : datum.channels * datum.height * datum.width ≤ datum.float_data.length)
    (hc : param.crop_size = 0) (hm : param.mirror = false)
    (hmean : ∀ mean, param.mean_file = some mean →
      mean.length = datum.channels * datum.height * datum.width) :
    ∃ d', DataTransformer.Transform param datum scratch b.data (b.offset k 0 0 0) = some d' ∧
      Blob.IsBatch { b with data := d' } scratch B shape ∧
      Blob.slot { b with data := d' } k = DataTransformer.values param datum ∧
      ∀ j, j < k → Blob.slot { b with data := d' } j = b.slot j := by
  obtain ⟨⟨hn, hch, hh, hw⟩, hlen, ⟨sn, sc, sh, sw⟩⟩ := hb
  subst hshape
  simp only at hch hh hw hlen sc sh sw
  have hoff : b.offset k 0 0 0 = k * (datum.channels * datum.height * datum.width) := by
    simp [Blob.offset, hch, hh, hw, Nat.mul_assoc]
  have hbound : k * (datum.channels * datum.height * datum.width)
      + datum.channels * datum.height * datum.width ≤ b.data.length := by
    have : (k + 1) * (datum.channels * datum.height * datum.width)
        ≤ B * (datum.channels * datum.height * datum.width) := Nat.mul_le_mul_right _ hk
    rw [Nat.add_mul, Nat.one_mul] at this; omega
  have hT := DataTransformer.Transform_eq param datum scratch b.data
    (k * (datum.channels * datum.height * datum.width)) hc hm ⟨sc, sh, sw, sn⟩ hfull hbound hmean
  have hvl := DataTransformer.length_values param datum
  refine ⟨b.data.take (k * (datum.channels * datum.height * datum.width))
      ++ DataTransformer.values param datum
      ++ b.data.drop (k * (datum.channels * datum.height * datum.width)
          + datum.channels * datum.height * datum.width),
    by rw [hoff]; exact hT, ⟨⟨hn, hch, hh, hw⟩, ?_, ⟨sn, sc, sh, sw⟩⟩, ?_, ?_⟩
  · show (_ ++ _ ++ _ : List α).length = _
    rw [splice_length _ _ _ _ hvl hbound]; exact hlen
  · rw [Blob.slot_eq]
    simp only [hch, hh, hw]
    exact splice_at _ _ _ _ hvl (by omega) _
  · intro j hj
    rw [Blob.slot_eq, Blob.slot_eq]
    simp only [hch, hh, hw]
    rw [List.append_assoc]
    apply splice_before
    · have : (j + 1) * (datum.channels * datum.height * datum.width)
          ≤ k * (datum.channels * datum.height * datum.width) := Nat.mul_le_mul_right _ hj
      rw [Nat.add_mul, Nat.one_mul] at this; exact this
    · omega

omit [CommRing α] in
/-- The cursor after `Next` and the rewind at the end of the store. -/
theorem Cursor.advance_pos (it : Cursor α) (h : it.pos < it.db.length) :
    (if !(it.Next).valid then (it.Next).SeekToFirst else it.Next)
      = ⟨it.db, (it.pos + 1) % it.db.length⟩ := by
  by_cases hlt : it.pos + 1 < it.db.length
  · simp [Cursor.Next, Cursor.valid, Cursor.SeekToFirst, hlt, Nat.mod_eq_of_lt hlt]
  · have heq : it.pos + 1 = it.db.length := by omega
    simp [Cursor.Next, Cursor.valid, Cursor.SeekToFirst, heq]

/-- One fill of a ready layer over a conforming store: it succeeds, the layer
stays ready, the cursor has moved `B` records forward around the store, and
slot `j` holds the record `j` places after the starting one. -/
theorem MapDataLayer.InternalThreadEntry_spec (l : MapDataLayer α)
    (store : List (BlobProtoVector α)) (tp : TransformationParameter α) (B : Nat)
    (dshape lshape : Nat × Nat × Nat)
    (hr : l.Ready store tp B dshape lshape) (hconf : Conforming store dshape lshape)
    (hc : tp.crop_size = 0) (hm : tp.mirror = false)
    (hmean : ∀ mean, tp.mean_file = some mean → mean.length = dshape.1 * dshape.2.1 * dshape.2.2)
    (hcount : 0 < B * (dshape.1 * dshape.2.1 * dshape.2.2)) :
    ∃ l', l.InternalThreadEntry = some l' ∧ l'.Ready store tp B dshape lshape ∧
      l'.iter_.pos = (l.iter_.pos + B) % store.length ∧
      ∀ j, j < B → ∀ d lab, store[(l.iter_.pos + j) % store.length]? = some ⟨[d, lab]⟩ →
        l'.prefetch_data_.slot j = DataTransformer.values tp (BlobProto2Datum d) ∧
        l'.prefetch_label_.slot j = lab.data := by
  have hr' := hr
  obtain ⟨hB, -, -, -, hpos, hbd, -⟩ := hr'
  have hcnt : l.prefetch_data_.count ≠ 0 := by
    obtain ⟨⟨h1, h2, h3, h4⟩, -, -⟩ := hbd
    rw [Blob.count, h1, h2, h3, h4]
    rw [Nat.mul_assoc, Nat.mul_assoc] at *
    omega
  unfold InternalThreadEntry
  rw [if_neg hcnt, hB]
  apply forLoop_inv
    (fun k (lk : MapDataLayer α) => lk.Ready store tp B dshape lshape ∧
      lk.iter_.pos = (l.iter_.pos + k) % store.length ∧
      ∀ j, j < k → ∀ d lab, store[(l.iter_.pos + j) % store.length]? = some ⟨[d, lab]⟩ →
        lk.prefetch_data_.slot j = DataTransformer.values tp (BlobProto2Datum d) ∧
        lk.prefetch_label_.slot j = lab.data)
  · exact ⟨hr, by rw [Nat.add_zero, Nat.mod_eq_of_lt hpos], by intro j hj; omega⟩
  · rintro k lk hk ⟨⟨kB, kdt, klt, kdb, kpos, kbd, kbl⟩, kp, kslots⟩
    obtain ⟨d, lab, hrec, hds, hls, hdf, hlf⟩ := hconf.record lk.iter_.pos kpos
    obtain ⟨pd, hpd, hpdb, hpdk, hpdj⟩ := kbd.transform_step lk.data_transformer_ (BlobProto2Datum d)
      k hk hds (by simp [BlobProto2Datum, hdf]) (by rw [kdt]; exact hc) (by rw [kdt]; exact hm)
      (by
        intro mean hmf
        rw [kdt] at hmf
        have := hmean mean hmf
        rw [← hds] at this
        exact this)
    obtain ⟨pl, hpl, hplb, hplk, hplj⟩ := kbl.transform_step lk.label_transformer_ (BlobProto2Datum lab)
      k hk hls (by simp [BlobProto2Datum, hlf]) (by rw [klt]; exact hc) (by rw [klt]; exact hm)
      (by intro mean hmf; rw [klt] at hmf; simp [label_trans_param] at hmf)
    have hval : lk.iter_.value = some ⟨[d, lab]⟩ := by
      rw [Cursor.value, kdb]; exact hrec
    have hadv := Cursor.advance_pos lk.iter_ (by rw [kdb]; exact kpos)
    refine ⟨{ lk with iter_ := ⟨lk.iter_.db, (lk.iter_.pos + 1) % lk.iter_.db.length⟩,
                      prefetch_data_ := { lk.prefetch_data_ with data := pd },
                      prefetch_label_ := { lk.prefetch_label_ with data := pl } }, ?_, ?_, ?_, ?_⟩
    · simp only [hval, Option.bind_eq_bind, Option.some_bind, List.getElem?_cons_zero,
        List.getElem?_cons_succ, hpd, hpl, hadv]
    · refine ⟨kB, kdt, klt, kdb, ?_, hpdb, hplb⟩
      show (lk.iter_.pos + 1) % lk.iter_.db.length < store.length
      rw [kdb]; exact Nat.mod_lt _ (by omega)
    · show (lk.iter_.pos + 1) % lk.iter_.db.length = _
      rw [kdb, kp, Nat.mod_add_mod, Nat.add_assoc]
    · intro j hj d' lab' hrec'
      rcases Nat.lt_succ_iff_lt_or_eq.mp hj with hlt | heq
      · obtain ⟨h1, h2⟩ := kslots j hlt d' lab' hrec'
        exact ⟨(hpdj j hlt).trans h1, (hplj j hlt).trans h2⟩
      · subst heq
        rw [← kp, hrec] at hrec'
        simp only [Option.some.injEq, BlobProtoVector.mk.injEq, List.cons.injEq, and_true] at hrec'
        obtain ⟨rfl, rfl⟩ := hrec'
        refine ⟨by rw [← kdt]; exact hpdk, ?_⟩
        show Blob.slot { lk.prefetch_label_ with data := pl } j = lab.data
        rw [hplk, klt]
        exact DataTransformer.values_label tp lab hlf

omit [CommRing α] in
theorem Blob.isBatch_Reshape [Zero α] (b scratch : Blob α) (B C H W : Nat)
    (shape : Nat × Nat × Nat) (hs : (C, H, W) = shape) :
    (b.Reshape B C H W).IsBatch (scratch.Reshape 1 C H W) B shape := by
  subst hs
  refine ⟨⟨rfl, rfl, rfl, rfl⟩, ?_, ⟨rfl, rfl, rfl, rfl⟩⟩
  simp [Blob.Reshape, Blob.length_resize, Nat.mul_assoc]

/-- Setup over a conforming store whose skipped prefix is shorter than the
store, with no crop and no mirroring asked for: it succeeds and leaves the
layer ready, the cursor on the record after the skipped ones. -/
theorem MapDataLayer.DataLayerSetUp_ready (l : MapDataLayer α)
    (store : List (BlobProtoVector α)) (rng : Nat) (bottom : List (Blob α))
    (t0 t1 : Blob α) (rest : List (Blob α)) (tp : TransformationParameter α)
    (dshape lshape : Nat × Nat × Nat)
    (htp : l.transform_param = tp) (hdt : l.data_transformer_ = tp)
    (hlt : l.label_transformer_ = label_trans_param tp)
    (hconf : Conforming store dshape lshape) (hpos : l.skipCount rng < store.length)
    (hc : tp.crop_size = 0) (hm : tp.mirror = false) :
    ∃ l0 top', l.DataLayerSetUp store rng bottom (t0 :: t1 :: rest) = some (l0, top') ∧
      l0.Ready store tp l.data_param.batch_size dshape lshape ∧
      l0.iter_.pos = l.skipCount rng := by
  obtain ⟨d, lab, hrec, hds, hls, -, -⟩ := hconf.record _ hpos
  refine ⟨{ l with
      db_ := store, iter_ := ⟨store, l.skipCount rng⟩,
      prefetch_data_ :=
        l.prefetch_data_.Reshape l.data_param.batch_size d.channels d.height d.width,
      prefetch_label_ :=
        l.prefetch_label_.Reshape l.data_param.batch_size lab.channels lab.height lab.width,
      transformed_data_ := l.transformed_data_.Reshape 1 d.channels d.height d.width,
      transformed_label_ := l.transformed_label_.Reshape 1 lab.channels lab.height lab.width },
    t0.Reshape l.data_param.batch_size d.channels d.height d.width ::
      t1.Reshape l.data_param.batch_size lab.channels lab.height lab.width :: rest,
    ?_, ⟨rfl, hdt, hlt, rfl, hpos, ?_, ?_⟩, rfl⟩
  · unfold DataLayerSetUp
    simp only [setup_cursor, Cursor.value, hrec, htp, hc, hm]
    simp
  · exact Blob.isBatch_Reshape _ _ _ _ _ _ _ hds
  · exact Blob.isBatch_Reshape _ _ _ _ _ _ _ hls

theorem MapDataLayer.fills_succ (l : MapDataLayer α) (f : Nat) :
    l.fills (f + 1) = (l.fills f).bind InternalThreadEntry := rfl

/-- Any number of fills of a ready layer over a conforming store succeed, and
after `f` fills the cursor is `f * B` records further around the store. -/
theorem MapDataLayer.fills_ready (l : MapDataLayer α)
    (store : List (BlobProtoVector α)) (tp : TransformationParameter α) (B : Nat)
    (dshape lshape : Nat × Nat × Nat)
    (hr : l.Ready store tp B dshape lshape) (hconf : Conforming store dshape lshape)
    (hc : tp.crop_size = 0) (hm : tp.mirror = false)
    (hmean : ∀ mean, tp.mean_file = some mean → mean.length = dshape.1 * dshape.2.1 * dshape.2.2)
    (hcount : 0 < B * (dshape.1 * dshape.2.1 * dshape.2.2)) (f : Nat) :
    ∃ lf, l.fills f = some lf ∧ lf.Ready store tp B dshape lshape ∧
      lf.iter_.pos = (l.iter_.pos + f * B) % store.length := by
  induction f with
  | zero =>
    refine ⟨l, rfl, hr, ?_⟩
    rw [Nat.zero_mul, Nat.add_zero, Nat.mod_eq_of_lt hr.2.2.2.2.1]
  | succ g ih =>
    obtain ⟨lg, hg, hrg, hpg⟩ := ih
    obtain ⟨l', h1, h2, h3, -⟩ := InternalThreadEntry_spec lg store tp B dshape lshape hrg hconf
      hc hm hmean hcount
    refine ⟨l', by rw [fills_succ, hg]; exact h1, h2, ?_⟩
    rw [h3, hpg, Nat.mod_add_mod, Nat.succ_mul, Nat.add_assoc]

/-- C2: MapDataLayer circular replay. For a store of `M ≥ 1` records that
satisfies the store invariant (two tensors per entry, of the shapes found at
setup, the data tensor not empty), a layer set up with `rand_skip = 0` and
batch size `B ≥ 1`, every number of consecutive fills succeeds, and the `K`-th
record served overall (1-indexed), which is slot `(K-1) mod B` of fill
`(K-1) div B`, is record `((K-1) mod M) + 1` of the store, at list position
`(K-1) mod M`: the data slot holds its transformed data values and the label
slot its label values. This holds also when a batch straddles the end of the
store. -/
theorem MapDataLayer.circular_replay (dp : DataParameter) (tp : TransformationParameter α)
    (store : List (BlobProtoVector α)) (rng : Nat) (bottom : List (Blob α))
    (t0 t1 : Blob α) (rest : List (Blob α)) (dshape lshape : Nat × Nat × Nat)
    (hM : 1 ≤ store.length) (hskip : dp.rand_skip = 0) (hB : 1 ≤ dp.batch_size)
    (hc : tp.crop_size = 0) (hm : tp.mirror = false)
    (hmean : ∀ mean, tp.mean_file = some mean → mean.length = dshape.1 * dshape.2.1 * dshape.2.2)
    (hconf : Conforming store dshape lshape)
    (hne : 0 < dshape.1 * dshape.2.1 * dshape.2.2) :
    ∃ l0 top', (create dp tp).DataLayerSetUp store rng bottom (t0 :: t1 :: rest)
        = some (l0, top') ∧
      ∀ K, 1 ≤ K → ∃ lf d lab,
        l0.fills ((K - 1) / dp.batch_size + 1) = some lf ∧
        store[(K - 1) % store.length]? = some ⟨[d, lab]⟩ ∧
        lf.prefetch_data_.slot ((K - 1) % dp.batch_size)
          = DataTransformer.values tp (BlobProto2Datum d) ∧
        lf.prefetch_label_.slot ((K - 1) % dp.batch_size) = lab.data := by
  have hsk : (create dp tp).skipCount rng = 0 := by simp [skipCount, create, hskip]
  obtain ⟨l0, top', hs, hr, hp0⟩ := DataLayerSetUp_ready (create dp tp) store rng bottom t0 t1
    rest tp dshape lshape rfl rfl rfl hconf (by rw [hsk]; omega) hc hm
  rw [hsk] at hp0
  have hcount : 0 < dp.batch_size * (dshape.1 * dshape.2.1 * dshape.2.2) :=
    Nat.mul_pos (by omega) hne
  refine ⟨l0, top', hs, ?_⟩
  intro K _
  obtain ⟨lf, hf, hrf, hpf⟩ := fills_ready l0 store tp dp.batch_size dshape lshape hr hconf
    hc hm hmean hcount ((K - 1) / dp.batch_size)
  obtain ⟨l', h1, -, -, hslots⟩ := InternalThreadEntry_spec lf store tp dp.batch_size dshape
    lshape hrf hconf hc hm hmean hcount
  obtain ⟨d, lab, hrec, -⟩ := hconf.record ((K - 1) % store.length) (Nat.mod_lt _ (by omega))
  have hidx : (lf.iter_.pos + (K - 1) % dp.batch_size) % store.length
      = (K - 1) % store.length := by
    rw [hpf, hp0, Nat.zero_add, Nat.mod_add_mod, Nat.div_add_mod']
  obtain ⟨hd, hl⟩ := hslots ((K - 1) % dp.batch_size) (Nat.mod_lt _ (by omega)) d lab
    (by rw [hidx]; exact hrec)
  exact ⟨l', d, lab, by rw [fills_succ, hf]; exact h1, hrec, hd, hl⟩

/-- Witness for C2: the scenario of the spec, a store of 3 records with data
values 1, 2, 3 (and label 7) and batch size 2: the third and fourth records
served, the two slots of the second fill, are `3` and then `1` again. -/
theorem MapDataLayer.circular_replay_witness :
    ∃ l0 top' l2, (create ⟨2, 0⟩ (TransformationParameter.default : TransformationParameter Int)).DataLayerSetUp
        [⟨[⟨1, 1, 1, 1, [1]⟩, ⟨1, 1, 1, 1, [7]⟩]⟩, ⟨[⟨1, 1, 1, 1, [2]⟩, ⟨1, 1, 1, 1, [7]⟩]⟩,
          ⟨[⟨1, 1, 1, 1, [3]⟩, ⟨1, 1, 1, 1, [7]⟩]⟩] 0 [] [Blob.empty, Blob.empty]
        = some (l0, top') ∧
      l0.fills 2 = some l2 ∧ l2.prefetch_data_.slot 0 = [3] ∧ l2.prefetch_data_.slot 1 = [1] := by
  obtain ⟨l0, top', hs, hK⟩ := circular_replay ⟨2, 0⟩
    (TransformationParameter.default : TransformationParameter Int)
    [⟨[⟨1, 1, 1, 1, [1]⟩, ⟨1, 1, 1, 1, [7]⟩]⟩, ⟨[⟨1, 1, 1, 1, [2]⟩, ⟨1, 1, 1, 1, [7]⟩]⟩,
      ⟨[⟨1, 1, 1, 1, [3]⟩, ⟨1, 1, 1, 1, [7]⟩]⟩] 0 [] Blob.empty Blob.empty [] (1, 1, 1) (1, 1, 1)
    (by decide) rfl (by decide) rfl rfl (by intro mean h; cases h) (by decide) (by decide)
  obtain ⟨l2, d3, lab3, h3f, h3r, h3d, -⟩ := hK 3 (by decide)
  obtain ⟨l2', d4, lab4, h4f, h4r, h4d, -⟩ := hK 4 (by decide)
  have e : l2' = l2 := Option.some.inj (h4f.symm.trans h3f)
  subst e
  have e3 : d3 = ⟨1, 1, 1, 1, [3]⟩ := by
    have := Option.some.inj h3r; injection this with h; injection h with h _; exact h.symm
  have e4 : d4 = ⟨1, 1, 1, 1, [1]⟩ := by
    have := Option.some.inj h4r; injection this with h; injection h with h _; exact h.symm
  subst e3 e4
  exact ⟨l0, top', l2', hs, h3f, h3d.trans (by decide), h4d.trans (by decide)⟩

end

/-- The flat index `(c*H + h)*W + w` is below `C*H*W` and determines
`(c, h, w)`. -/
theorem index_lt (C H W c h w : Nat) (hc : c < C) (hh : h < H) (hw : w < W) :
    (c * H + h) * W + w < C * H * W :=
  (plane_index (c * H + h) w (C * H) W (plane_index c h C H hc hh).1 hw).1

theorem index_inj (H W c h w c' h' w' : Nat) (hh : h < H) (hw : w < W)
    (hh' : h' < H) (hw' : w' < W)
    (e : (c * H + h) * W + w = (c' * H + h') * W + w') : c = c' ∧ h = h' ∧ w = w' := by
  obtain ⟨d1, m1⟩ := block_div_mod (c * H + h) w W hw
  obtain ⟨d2, m2⟩ := block_div_mod (c' * H + h') w' W hw'
  rw [e] at d1 m1
  have e1 : c * H + h = c' * H + h' := d1.symm.trans d2
  have e2 : w = w' := m1.symm.trans m2
  obtain ⟨d3, m3⟩ := block_div_mod c h H hh
  obtain ⟨d4, m4⟩ := block_div_mod c' h' H hh'
  rw [e1] at d3 m3
  exact ⟨d3.symm.trans d4, m3.symm.trans m4, e2⟩

section
variable {α : Type} [CommRing α]

/-- One store of the innermost loop of `CVMatToBlobProto`. -/
theorem Mat.Converted.store_step {cv_img : Mat} {h w c : Nat} {blob : BlobProto α}
    (hinv : cv_img.Converted h w c blob) (hwf : cv_img.WellFormed)
    (hh : h < cv_img.rows) (hw : w < cv_img.cols) (hc : c < cv_img.channels)
    (row : List Nat) (hrow : cv_img.ptr h = some row) :
    ∃ px data, row[w * cv_img.channels + c]? = some px ∧
      writeAt blob.data ((c * cv_img.rows + h) * cv_img.cols + w) (px : α) = some data ∧
      cv_img.Converted h w (c + 1) { blob with data := data } := by
  obtain ⟨hshape, hlen, hval⟩ := hinv
  have hmem : row ∈ cv_img.data := by
    rw [Mat.ptr] at hrow; exact List.getElem?_mem hrow
  have hrl : row.length = cv_img.cols * cv_img.channels := hwf.2 row hmem
  have hii : w * cv_img.channels + c < row.length := by
    rw [hrl]; exact (plane_index w c cv_img.cols cv_img.channels hw hc).1
  have hidx := index_lt cv_img.channels cv_img.rows cv_img.cols c h w hc hh hw
  have hpx : cv_img.value c h w = ((row[w * cv_img.channels + c] : Nat) : α) := by
    rw [Mat.ptr] at hrow
    simp [Mat.value, List.getD_eq_getElem?_getD, hrow, List.getElem?_eq_getElem hii]
  refine ⟨row[w * cv_img.channels + c], blob.data.set ((c * cv_img.rows + h) * cv_img.cols + w)
    ((row[w * cv_img.channels + c] : Nat) : α), List.getElem?_eq_getElem hii, ?_,
    hshape, by simpa using hlen, ?_⟩
  · rw [writeAt, if_pos (by omega)]
  · intro c' h' w' hc' hh' hw' hlt
    show (blob.data.set _ _)[_]? = _
    by_cases heq : c' = c ∧ h' = h ∧ w' = w
    · obtain ⟨rfl, rfl, rfl⟩ := heq
      rw [List.getElem?_set_self (by omega), hpx]
    · have hne : (c * cv_img.rows + h) * cv_img.cols + w
          ≠ (c' * cv_img.rows + h') * cv_img.cols + w' := by
        intro e
        obtain ⟨e1, e2, e3⟩ := index_inj _ _ _ _ _ _ _ _ hh hw hh' hw' e
        exact heq ⟨e1.symm, e2.symm, e3.symm⟩
      rw [List.getElem?_set_ne hne]
      apply hval c' h' w' hc' hh' hw'
      omega

omit [CommRing α] in
/-- Sequencing rule: a first step that succeeds with `Q`, followed by a step
that succeeds from `Q` with `R`, succeeds with `R`. -/
theorem bind_spec {β γ : Type} (Q : β → Prop) (R : γ → Prop) (x : Option β)
    (f : β → Option γ) (hx : ∃ a, x = some a ∧ Q a)
    (hf : ∀ a, Q a → ∃ b, f a = some b ∧ R b) : ∃ b, x.bind f = some b ∧ R b := by
  obtain ⟨a, rfl, ha⟩ := hx
  exact hf a ha

omit [CommRing α] in
/-- Invariant rule for counted loops with a final consequence. -/
theorem forLoop_inv_post {σ : Type} (P : Nat → σ → Prop) (R : σ → Prop)
    (body : Nat → σ → Option σ) (n : Nat) (s : σ) (h0 : P 0 s)
    (hstep : ∀ k s, k < n → P k s → ∃ s', body k s = some s' ∧ P (k + 1) s')
    (hpost : ∀ s', P n s' → R s') : ∃ s', forLoop n body s = some s' ∧ R s' := by
  obtain ⟨s', h1, h2⟩ := forLoop_inv P body n s h0 hstep
  exact ⟨s', h1, hpost s' h2⟩

theorem Mat.Converted.next_col {cv_img : Mat} {h w : Nat} {blob : BlobProto α}
    (hinv : cv_img.Converted h w cv_img.channels blob) :
    cv_img.Converted h (w + 1) 0 blob := by
  obtain ⟨hshape, hlen, hval⟩ := hinv
  refine ⟨hshape, hlen, ?_⟩
  intro c' h' w' hc' hh' hw' hlt
  apply hval c' h' w' hc' hh' hw'
  omega

theorem Mat.Converted.next_row {cv_img : Mat} {h : Nat} {blob : BlobProto α}
    (hinv : cv_img.Converted h cv_img.cols 0 blob) :
    cv_img.Converted (h + 1) 0 0 blob := by
  obtain ⟨hshape, hlen, hval⟩ := hinv
  refine ⟨hshape, hlen, ?_⟩
  intro c' h' w' hc' hh' hw' hlt
  apply hval c' h' w' hc' hh' hw'
  omega

/-- The conversion succeeds on a well-formed 8-bit image, and at the end of
the loops every entry holds its pixel value. -/
theorem CVMatToBlobProto_spec (cv_img : Mat) (blob : BlobProto α)
    (hd : cv_img.depth = CV_8U) (hwf : cv_img.WellFormed) :
    ∃ out, CVMatToBlobProto cv_img blob = some out ∧
      cv_img.Converted cv_img.rows 0 0 out := by
  unfold CVMatToBlobProto
  rw [if_neg (by simp [hd])]
  simp only [List.length_nil, Nat.sub_zero, List.nil_append, Option.bind_eq_bind]
  apply forLoop_inv (fun h (b : BlobProto α) => cv_img.Converted h 0 0 b)
  · refine ⟨⟨rfl, rfl, rfl, rfl⟩, by simp, ?_⟩
    intro c' h' w' _ _ _ hlt
    omega
  · intro h b hh hinv
    obtain ⟨row, hrow⟩ : ∃ row, cv_img.ptr h = some row := by
      rw [Mat.ptr]
      exact ⟨_, List.getElem?_eq_getElem (by rw [hwf.1]; exact hh)⟩
    rw [hrow, Option.some_bind]
    apply bind_spec (fun st : BlobProto α × Nat => cv_img.Converted h cv_img.cols 0 st.1)
    · apply forLoop_inv_post (fun w (st : BlobProto α × Nat) =>
        cv_img.Converted h w 0 st.1 ∧ st.2 = w * cv_img.channels)
      · exact ⟨hinv, by simp⟩
      · rintro w ⟨b1, ii⟩ hw ⟨hb1, hii⟩
        simp only at hb1 hii
        subst hii
        apply forLoop_inv_post (fun c (st : BlobProto α × Nat) =>
          cv_img.Converted h w c st.1 ∧ st.2 = w * cv_img.channels + c)
        · exact ⟨hb1, rfl⟩
        · rintro c ⟨b2, ii⟩ hc ⟨hb2, hii⟩
          simp only at hb2 hii
          subst hii
          obtain ⟨px, data, hpx, hwr, hnext⟩ := hb2.store_step hwf hh hw hc row hrow
          refine ⟨({ b2 with data := data }, w * cv_img.channels + c + 1), ?_, hnext, rfl⟩
          simp only [hpx, hwr, Option.some_bind]
        · rintro ⟨b3, ii⟩ ⟨hb3, hii⟩
          simp only at hb3 hii
          exact ⟨hb3.next_col, by rw [hii, Nat.succ_mul]⟩
      · rintro ⟨b5, ii⟩ ⟨hb5, -⟩
        exact hb5
    · rintro ⟨b4, ii⟩ hb4
      exact ⟨b4, rfl, hb4.next_row⟩

/-- C6: record wire format written by `CVMatToBlobProto`. For every 8-bit
image with `H` rows, `W` columns and `C` interleaved channels (all rows
present with `W*C` bytes each), the conversion succeeds and the tensor record
has `num = 1`, `channels = C`, `height = H`, `width = W` and exactly `C*H*W`
data values; for every `c < C`, `h < H`, `w < W` the value at flat index
`(c*H + h)*W + w` is the image byte at row `h`, position `w*C + c`, converted
to float: channel-major, then row, then column order, the channel varying
slowest and the column fastest. -/
theorem CVMatToBlobProto_wire_format (cv_img : Mat) (blob : BlobProto α)
    (hd : cv_img.depth = CV_8U) (hwf : cv_img.WellFormed) :
    ∃ out, CVMatToBlobProto cv_img blob = some out ∧
      out.num = 1 ∧ out.channels = cv_img.channels ∧ out.height = cv_img.rows ∧
      out.width = cv_img.cols ∧
      out.data.length = cv_img.channels * cv_img.rows * cv_img.cols ∧
      ∀ c h w, c < cv_img.channels → h < cv_img.rows → w < cv_img.cols →
        ∃ row px, cv_img.ptr h = some row ∧ row[w * cv_img.channels + c]? = some px ∧
          out.data[(c * cv_img.rows + h) * cv_img.cols + w]? = some (px : α) := by
  obtain ⟨out, hout, ⟨hn, hc, hh, hw⟩, hlen, hval⟩ := CVMatToBlobProto_spec cv_img blob hd hwf
  refine ⟨out, hout, hn, hc, hh, hw, hlen, ?_⟩
  intro c h w hc' hh' hw'
  obtain ⟨row, hrow⟩ : ∃ row, cv_img.data[h]? = some row :=
    ⟨_, List.getElem?_eq_getElem (by rw [hwf.1]; exact hh')⟩
  have hrl : row.length = cv_img.cols * cv_img.channels := hwf.2 _ (List.getElem?_mem hrow)
  obtain ⟨px, hpx⟩ : ∃ px, row[w * cv_img.channels + c]? = some px :=
    ⟨_, List.getElem?_eq_getElem
      (by rw [hrl]; exact (plane_index w c cv_img.cols cv_img.channels hw' hc').1)⟩
  refine ⟨row, px, hrow, hpx, ?_⟩
  rw [hval c h w hc' hh' hw' (Or.inl hh')]
  simp [Mat.value, List.getD_eq_getElem?_getD, hrow, hpx]

/-- Witness for C6: a `2×2` image with 3 interleaved channels; the value of
channel 2 at row 1, column 0 is byte `0*3 + 2` of row 1, which is 9, and lies
at flat index `(2*2 + 1)*2 + 0 = 10`. -/
theorem CVMatToBlobProto_wire_format_witness :
    ∃ out, CVMatToBlobProto ⟨2, 2, 3, CV_8U, [[1, 2, 3, 4, 5, 6], [7, 8, 9, 10, 11, 12]]⟩
        (⟨0, 0, 0, 0, []⟩ : BlobProto Int) = some out ∧
      (out.num, out.channels, out.height, out.width) = (1, 3, 2, 2) ∧
      out.data.length = 12 ∧ out.data[10]? = some 9 := by
  obtain ⟨out, h, hn, hc, hh, hw, hl, hv⟩ := CVMatToBlobProto_wire_format
    ⟨2, 2, 3, CV_8U, [[1, 2, 3, 4, 5, 6], [7, 8, 9, 10, 11, 12]]⟩
    (⟨0, 0, 0, 0, []⟩ : BlobProto Int) rfl (by decide)
  obtain ⟨row, px, hrow, hpx, hval⟩ := hv 2 1 0 (by decide) (by decide) (by decide)
  have e1 : row = [7, 8, 9, 10, 11, 12] := (Option.some.inj hrow).symm
  subst e1
  have e2 : px = 9 := (Option.some.inj hpx).symm
  subst e2
  exact ⟨out, h, by rw [hn, hc, hh, hw], hl, hval⟩

end

section
variable {α : Type} [CommRing α]

/-- C11, as stated, fails: a layer set up on bottoms of shapes `(2,1,1,1)`,
`(2,1,1,1)` and `(2,3,4,5)` and then reshaped for bottoms of shapes
`(3,1,1,1)`, `(3,1,1,1)` and `(3,3,6,7)` gives the top the shape `(2,1,4,5)`
seen at setup, not `(3,1,6,7)`. -/
theorem PerspectiveLayer.Reshape_keeps_setup_shape :
    ∃ l top out, (create (⟨1, 1⟩ : PerspectiveParameter Int)).SetUp
        [Blob.create 2 1 1 1, Blob.create 2 1 1 1, Blob.create 2 3 4 5] [Blob.empty]
        = some (l, top) ∧
      l.Reshape [Blob.create 3 1 1 1, Blob.create 3 1 1 1, Blob.create 3 3 6 7] top
        = some [out] ∧
      out.shape = (2, 1, 4, 5) ∧ out.shape ≠ (3, 1, 6, 7) := by
  refine ⟨_, _, _, rfl, rfl, ?_, ?_⟩ <;> decide

/-- C11, amended: `Reshape` sets the output shape from the members that
`LayerSetUp` stored. For every layer reached by a successful setup on bottoms
with slope sample count `N` and reference height `H` and width `W`, and for
every bottoms and top passed to a later `Reshape`, the call succeeds and the
top has shape `(N, 1, H, W)`; this is the shape `(N', 1, H', W')` of the
current bottoms when their `N'`, `H'`, `W'` are those seen at setup. -/
theorem PerspectiveLayer.Reshape_shape_from_setup (l0 : PerspectiveLayer α)
    (b0 b1 b2 t0 : Blob α) (rest : List (Blob α))
    (bottom' : List (Blob α)) (t : Blob α) (rest' : List (Blob α))
    (h0 : b0.countFrom 1 = 1) (h1 : b1.countFrom 1 = 1) :
    ∃ l top out, l0.SetUp [b0, b1, b2] (t0 :: rest) = some (l, top) ∧
      l.Reshape bottom' (t :: rest') = some (out :: rest') ∧
      out.shape = (b0.num, 1, b2.height, b2.width) ∧
      ∀ c0 c1 c2, bottom' = [c0, c1, c2] → c0.num = b0.num → c2.height = b2.height →
        c2.width = b2.width → out.shape = (c0.num, 1, c2.height, c2.width) := by
  obtain ⟨l, hl, hs⟩ := LayerSetUp_isSetUp l0 b0 b1 b2 (t0 :: rest) h0 h1
  obtain ⟨-, hN, hH, hW, -, -⟩ := hs
  refine ⟨l, t0.Reshape b0.num 1 b2.height b2.width :: rest,
    t.Reshape b0.num 1 b2.height b2.width, ?_, ?_, rfl, ?_⟩
  · simp [SetUp, hl, Reshape, hN, hH, hW]
  · simp [Reshape, hN, hH, hW]
  · intro c0 c1 c2 _ e0 e1 e2
    rw [e0, e1, e2]; rfl

/-- Witness for C11 (amended): the layer of the counterexample, reshaped for
bottoms `(3,1,1,1)`, `(3,1,1,1)`, `(3,3,6,7)`, has a top of shape
`(2,1,4,5)`. -/
theorem PerspectiveLayer.Reshape_shape_from_setup_witness :
    ∃ l top out, (create (⟨1, 1⟩ : PerspectiveParameter Int)).SetUp
        [Blob.create 2 1 1 1, Blob.create 2 1 1 1, Blob.create 2 3 4 5] [Blob.empty]
        = some (l, top) ∧
      l.Reshape [Blob.create 3 1 1 1, Blob.create 3 1 1 1, Blob.create 3 3 6 7] [Blob.empty]
        = some [out] ∧
      out.shape = (2, 1, 4, 5) := by
  obtain ⟨l, top, out, h1, h2, h3, -⟩ := Reshape_shape_from_setup
    (create (⟨1, 1⟩ : PerspectiveParameter Int))
    (Blob.create 2 1 1 1) (Blob.create 2 1 1 1) (Blob.create 2 3 4 5) Blob.empty []
    [Blob.create 3 1 1 1, Blob.create 3 1 1 1, Blob.create 3 3 6 7] Blob.empty []
    (by decide) (by decide)
  exact ⟨l, top, out, h1, h2, h3⟩

end

section
variable {α : Type} [CommRing α]

/-- C12: `MapDataLayer::DataLayerSetUp` buffer shapes. When the record under
the cursor holds a data tensor of shape `(Cd, Hd, Wd)` and a label tensor of
shape `(Cl, Hl, Wl)`, no crop and no mirroring are configured and the batch
size is `B` (the conditions under which setup succeeds), setup succeeds, the
data output `top[0]` and the data staging buffer have shape `(B, Cd, Hd, Wd)`,
the label output `top[1]` and the label staging buffer have shape
`(B, Cl, Hl, Wl)`, the one-sample scratch blobs have shapes `(1, Cd, Hd, Wd)`
and `(1, Cl, Hl, Wl)`, and all six hold as many elements as their shape asks
for. Nothing relates the data shape to the label shape. -/
theorem MapDataLayer.DataLayerSetUp_buffer_shapes (l : MapDataLayer α)
    (store : List (BlobProtoVector α)) (rng : Nat) (bottom : List (Blob α))
    (t0 t1 : Blob α) (rest : List (Blob α)) (d lab : BlobProto α)
    (hrec : store[l.skipCount rng]? = some ⟨[d, lab]⟩)
    (hc : l.transform_param.crop_size = 0) (hm : l.transform_param.mirror = false) :
    ∃ l' o0 o1, l.DataLayerSetUp store rng bottom (t0 :: t1 :: rest)
        = some (l', o0 :: o1 :: rest) ∧
      o0.shape = (l.data_param.batch_size, d.channels, d.height, d.width) ∧
      l'.prefetch_data_.shape = (l.data_param.batch_size, d.channels, d.height, d.width) ∧
      o1.shape = (l.data_param.batch_size, lab.channels, lab.height, lab.width) ∧
      l'.prefetch_label_.shape
        = (l.data_param.batch_size, lab.channels, lab.height, lab.width) ∧
      l'.transformed_data_.shape = (1, d.channels, d.height, d.width) ∧
      l'.transformed_label_.shape = (1, lab.channels, lab.height, lab.width) ∧
      (o0.WellFormed ∧ l'.prefetch_data_.WellFormed ∧ l'.transformed_data_.WellFormed) ∧
      (o1.WellFormed ∧ l'.prefetch_label_.WellFormed ∧ l'.transformed_label_.WellFormed) := by
  have hwf : ∀ (b : Blob α) (n c h w : Nat), (b.Reshape n c h w).WellFormed := by
    intro b n c h w
    simp [Blob.WellFormed, Blob.Reshape, Blob.length_resize, Blob.count]
  refine ⟨{ l with
      db_ := store, iter_ := ⟨store, l.skipCount rng⟩,
      prefetch_data_ :=
        l.prefetch_data_.Reshape l.data_param.batch_size d.channels d.height d.width,
      prefetch_label_ :=
        l.prefetch_label_.Reshape l.data_param.batch_size lab.channels lab.height lab.width,
      transformed_data_ := l.transformed_data_.Reshape 1 d.channels d.height d.width,
      transformed_label_ := l.transformed_label_.Reshape 1 lab.channels lab.height lab.width },
    t0.Reshape l.data_param.batch_size d.channels d.height d.width,
    t1.Reshape l.data_param.batch_size lab.channels lab.height lab.width,
    ?_, rfl, rfl, rfl, rfl, rfl, rfl, ⟨hwf _ _ _ _ _, hwf _ _ _ _ _, hwf _ _ _ _ _⟩,
    ⟨hwf _ _ _ _ _, hwf _ _ _ _ _, hwf _ _ _ _ _⟩⟩
  unfold DataLayerSetUp
  simp only [setup_cursor, Cursor.value, hrec, hc, hm]
  simp

/-- Witness for C12: batch size 2, a record with a data tensor of shape
`(3, 2, 2)` and a label tensor of shape `(1, 1, 2)`: the outputs have shapes
`(2, 3, 2, 2)` and `(2, 1, 1, 2)`. -/
theorem MapDataLayer.DataLayerSetUp_buffer_shapes_witness :
    ∃ l' o0 o1,
      (create ⟨2, 0⟩ (TransformationParameter.default : TransformationParameter Int)).DataLayerSetUp
        [⟨[⟨1, 3, 2, 2, [1, 2, 3, 4, 5, 6, 7, 8, 9, 10, 11, 12]⟩, ⟨1, 1, 1, 2, [0, 1]⟩]⟩]
        0 [] [Blob.empty, Blob.empty] = some (l', [o0, o1]) ∧
      o0.shape = (2, 3, 2, 2) ∧ o1.shape = (2, 1, 1, 2) ∧
      l'.prefetch_data_.shape = (2, 3, 2, 2) ∧ l'.transformed_label_.shape = (1, 1, 1, 2) := by
  obtain ⟨l', o0, o1, h, h0, hp, h1, -, -, hl, -, -⟩ := DataLayerSetUp_buffer_shapes
    (create ⟨2, 0⟩ (TransformationParameter.default : TransformationParameter Int))
    [⟨[⟨1, 3, 2, 2, [1, 2, 3, 4, 5, 6, 7, 8, 9, 10, 11, 12]⟩, ⟨1, 1, 1, 2, [0, 1]⟩]⟩]
    0 [] Blob.empty Blob.empty [] ⟨1, 3, 2, 2, [1, 2, 3, 4, 5, 6, 7, 8, 9, 10, 11, 12]⟩
    ⟨1, 1, 1, 2, [0, 1]⟩ rfl rfl rfl
  exact ⟨l', o0, o1, h, h0, h1, hp, hl⟩

end

section
variable {α : Type} [CommRing α]

omit [CommRing α] in
theorem Cursor.iterate_Next (k : Nat) (it : Cursor α) :
    Nat.iterate Cursor.Next k it = { it with pos := it.pos + k } := by
  induction k generalizing it with
  | zero => rfl
  | succ m ih => rw [Function.iterate_succ_apply, ih]; simp [Cursor.Next]; omega

omit [CommRing α] in
/-- The skip loop of `DataLayerSetUp` calls `Next` exactly `skipCount` times
on the new cursor, with no rewind. -/
theorem MapDataLayer.skip_advances (l : MapDataLayer α) (store : List (BlobProtoVector α))
    (rng : Nat) :
    (if l.data_param.rand_skip ≠ 0 then
        skipLoop (rng % l.data_param.rand_skip) (Cursor.NewCursor store)
      else Cursor.NewCursor store)
      = Nat.iterate Cursor.Next (l.skipCount rng) (Cursor.NewCursor store) := by
  rw [setup_cursor, Cursor.iterate_Next]
  simp [Cursor.NewCursor]

/-- C13, as stated, fails: with a store of one record, `rand_skip = 5` and
the draw `3`, the skip loop advances the cursor `3 mod 5 = 3` times, past the
only record; there is no record at store position 3, setup fails, and so no
fill serves a record from that position. With `rand_skip = 0` the same store
and configuration set up. -/
theorem MapDataLayer.random_skip_past_end :
    MapDataLayer.skipLoop (3 % 5)
        (Cursor.NewCursor [(⟨[⟨1, 1, 1, 1, [1]⟩, ⟨1, 1, 1, 1, [7]⟩]⟩ : BlobProtoVector Int)])
      = ⟨[⟨[⟨1, 1, 1, 1, [1]⟩, ⟨1, 1, 1, 1, [7]⟩]⟩], 3⟩ ∧
    [(⟨[⟨1, 1, 1, 1, [1]⟩, ⟨1, 1, 1, 1, [7]⟩]⟩ : BlobProtoVector Int)][3 % 5]? = none ∧
    (¬ ∃ l0 top' l1 r,
      (create ⟨2, 5⟩ (TransformationParameter.default : TransformationParameter Int)).DataLayerSetUp
        [⟨[⟨1, 1, 1, 1, [1]⟩, ⟨1, 1, 1, 1, [7]⟩]⟩] 3 [] [Blob.empty, Blob.empty]
        = some (l0, top') ∧
      l0.InternalThreadEntry = some l1 ∧
      [(⟨[⟨1, 1, 1, 1, [1]⟩, ⟨1, 1, 1, 1, [7]⟩]⟩ : BlobProtoVector Int)][3 % 5]? = some r) ∧
    (create ⟨2, 5⟩ (TransformationParameter.default : TransformationParameter Int)).DataLayerSetUp
        [⟨[⟨1, 1, 1, 1, [1]⟩, ⟨1, 1, 1, 1, [7]⟩]⟩] 3 [] [Blob.empty, Blob.empty] = none ∧
    ((create ⟨2, 0⟩ (TransformationParameter.default : TransformationParameter Int)).DataLayerSetUp
        [⟨[⟨1, 1, 1, 1, [1]⟩, ⟨1, 1, 1, 1, [7]⟩]⟩] 3 [] [Blob.empty, Blob.empty]).isSome
      = true := by
  refine ⟨by decide, by decide, ?_, by decide, by decide⟩
  rintro ⟨l0, top', l1, r, -, -, h⟩
  have hn : [(⟨[⟨1, 1, 1, 1, [1]⟩, ⟨1, 1, 1, 1, [7]⟩]⟩ : BlobProtoVector Int)][3 % 5]? = none := by
    decide
  rw [hn] at h
  exact Option.noConfusion h

/-- C13, amended: MapDataLayer random skip at setup. For every `rand_skip`
value `s` and every random draw `x`, the cursor that setup reads from is the
new cursor advanced by exactly `x mod s` calls of `Next` when `s > 0`, a
number strictly less than `s`, and by none when `s = 0`. When the store holds
more records than that (and satisfies the store invariant, with a legal
configuration), setup succeeds, the read of the shape-discovery record leaves
the cursor where the skip left it, and the first record served by the first
fill is the record at store position `x mod s` (position 0 when `s = 0`). -/
theorem MapDataLayer.random_skip (dp : DataParameter) (tp : TransformationParameter α)
    (store : List (BlobProtoVector α)) (x : Nat) (bottom : List (Blob α))
    (t0 t1 : Blob α) (rest : List (Blob α)) (dshape lshape : Nat × Nat × Nat)
    (hpos : (create dp tp).skipCount x < store.length) (hB : 1 ≤ dp.batch_size)
    (hc : tp.crop_size = 0) (hm : tp.mirror = false)
    (hmean : ∀ mean, tp.mean_file = some mean → mean.length = dshape.1 * dshape.2.1 * dshape.2.2)
    (hconf : Conforming store dshape lshape)
    (hne : 0 < dshape.1 * dshape.2.1 * dshape.2.2) :
    (0 < dp.rand_skip → (create dp tp).skipCount x = x % dp.rand_skip ∧
      (create dp tp).skipCount x < dp.rand_skip) ∧
    (dp.rand_skip = 0 → (create dp tp).skipCount x = 0) ∧
    (if dp.rand_skip ≠ 0 then skipLoop (x % dp.rand_skip) (Cursor.NewCursor store)
      else Cursor.NewCursor store)
      = Nat.iterate Cursor.Next ((create dp tp).skipCount x) (Cursor.NewCursor store) ∧
    ∃ l0 top' l1 d lab,
      (create dp tp).DataLayerSetUp store x bottom (t0 :: t1 :: rest) = some (l0, top') ∧
      l0.iter_ = Nat.iterate Cursor.Next ((create dp tp).skipCount x) (Cursor.NewCursor store) ∧
      l0.iter_.pos = (create dp tp).skipCount x ∧
      store[(create dp tp).skipCount x]? = some ⟨[d, lab]⟩ ∧
      l0.InternalThreadEntry = some l1 ∧
      l1.prefetch_data_.slot 0 = DataTransformer.values tp (BlobProto2Datum d) ∧
      l1.prefetch_label_.slot 0 = lab.data := by
  refine ⟨?_, ?_, skip_advances (create dp tp) store x, ?_⟩
  · intro hs
    have hne0 : dp.rand_skip ≠ 0 := by omega
    have e : (create dp tp).skipCount x = x % dp.rand_skip := by
      simp [skipCount, create, hne0]
    exact ⟨e, by rw [e]; exact Nat.mod_lt _ hs⟩
  · intro hs
    simp [skipCount, create, hs]
  · obtain ⟨l0, top', hs, hr, hp0⟩ := DataLayerSetUp_ready (create dp tp) store x bottom t0 t1
      rest tp dshape lshape rfl rfl rfl hconf hpos hc hm
    have hcount : 0 < dp.batch_size * (dshape.1 * dshape.2.1 * dshape.2.2) :=
      Nat.mul_pos (by omega) hne
    obtain ⟨l1, h1, -, -, hslots⟩ := InternalThreadEntry_spec l0 store tp dp.batch_size dshape
      lshape hr hconf hc hm hmean hcount
    obtain ⟨d, lab, hrec, -⟩ := hconf.record _ hpos
    obtain ⟨hd, hl⟩ := hslots 0 (by omega) d lab
      (by rw [Nat.add_zero, hp0, Nat.mod_eq_of_lt hpos]; exact hrec)
    have hdb : l0.iter_.db = store := hr.2.2.2.1
    have hit : l0.iter_
        = Nat.iterate Cursor.Next ((create dp tp).skipCount x) (Cursor.NewCursor store) := by
      rw [Cursor.iterate_Next]
      rcases hi : l0.iter_ with ⟨db, pos⟩
      rw [hi] at hdb hp0
      simp only at hdb hp0
      subst hdb hp0
      simp [Cursor.NewCursor]
    exact ⟨l0, top', l1, d, lab, hs, hit, hp0, hrec, h1, hd, hl⟩

/-- Witness for C13 (amended): a store of 3 records with data values 1, 2, 3,
`rand_skip = 5` and the draw `7`: the cursor is advanced `7 mod 5 = 2` times
and the first fill serves the record at position 2, of value 3, first. -/
theorem MapDataLayer.random_skip_witness :
    ∃ l0 top' l1,
      (create ⟨2, 5⟩ (TransformationParameter.default : TransformationParameter Int)).DataLayerSetUp
        [⟨[⟨1, 1, 1, 1, [1]⟩, ⟨1, 1, 1, 1, [7]⟩]⟩, ⟨[⟨1, 1, 1, 1, [2]⟩, ⟨1, 1, 1, 1, [7]⟩]⟩,
          ⟨[⟨1, 1, 1, 1, [3]⟩, ⟨1, 1, 1, 1, [7]⟩]⟩] 7 [] [Blob.empty, Blob.empty]
        = some (l0, top') ∧
      l0.iter_.pos = 2 ∧ l0.InternalThreadEntry = some l1 ∧ l1.prefetch_data_.slot 0 = [3] := by
  obtain ⟨-, -, -, l0, top', l1, d, lab, hs, -, hp, hrec, h1, hd, -⟩ := random_skip ⟨2, 5⟩
    (TransformationParameter.default : TransformationParameter Int)
    [⟨[⟨1, 1, 1, 1, [1]⟩, ⟨1, 1, 1, 1, [7]⟩]⟩, ⟨[⟨1, 1, 1, 1, [2]⟩, ⟨1, 1, 1, 1, [7]⟩]⟩,
      ⟨[⟨1, 1, 1, 1, [3]⟩, ⟨1, 1, 1, 1, [7]⟩]⟩] 7 [] Blob.empty Blob.empty [] (1, 1, 1) (1, 1, 1)
    (by decide) (by decide) rfl rfl (by intro mean h; cases h) (by decide) (by decide)
  have e : d = ⟨1, 1, 1, 1, [3]⟩ := by
    have := Option.some.inj hrec; injection this with h; injection h with h _; exact h.symm
  subst e
  exact ⟨l0, top', l1, hs, hp, h1, hd.trans (by decide)⟩

end

section
variable {α : Type} [CommRing α]

omit [CommRing α] in
/-- A loop that runs to the end has run through each of its prefixes. -/
theorem forLoop_prefix {σ : Type} (body : Nat → σ → Option σ) (n k : Nat) (s s' : σ)
    (h : forLoop n body s = some s') (hk : k ≤ n) : ∃ sk, forLoop k body s = some sk := by
  induction n generalizing s' with
  | zero =>
    have : k = 0 := by omega
    subst this; exact ⟨s', h⟩
  | succ m ih =>
    rcases Nat.lt_or_ge k (m + 1) with hlt | hge
    · rw [forLoop_succ] at h
      rcases hm : forLoop m body s with _ | sm
      · rw [hm] at h; simp at h
      · exact ih sm hm (by omega)
    · have : k = m + 1 := by omega
      subst this; exact ⟨s', h⟩

theorem MapDataLayer.InternalThreadEntry_eq_fillSlots (l : MapDataLayer α) :
    l.InternalThreadEntry
      = if l.prefetch_data_.count = 0 then none else l.fillSlots l.data_param.batch_size :=
  rfl

/-- After `k` completed slots of a fill that started on a record, the cursor
is `k` records further around the store. -/
theorem MapDataLayer.fillSlots_cursor (l : MapDataLayer α) (k : Nat) (lk : MapDataLayer α)
    (hv : l.iter_.pos < l.iter_.db.length) (h : l.fillSlots k = some lk) :
    lk.iter_ = ⟨l.iter_.db, (l.iter_.pos + k) % l.iter_.db.length⟩ := by
  induction k generalizing lk with
  | zero =>
    have e : lk = l := (Option.some.inj h).symm
    subst e
    rw [Nat.add_zero, Nat.mod_eq_of_lt hv]
  | succ m ih =>
    rw [fillSlots, forLoop_succ] at h
    rcases hm : forLoop m _ l with _ | lm
    · rw [hm] at h; simp at h
    · rw [hm] at h
      have ihm := ih lm hm
      simp only [Option.some_bind, Option.bind_eq_bind, Option.bind_eq_some] at h
      obtain ⟨maps, -, b0, -, b1, -, td, -, tl, -, heq⟩ := h
      have e : lk = _ := (Option.some.inj heq).symm
      subst e
      have hvm : lm.iter_.pos < lm.iter_.db.length := by
        rw [ihm]; exact Nat.mod_lt _ (by omega)
      show (if !(lm.iter_.Next).valid then (lm.iter_.Next).SeekToFirst else lm.iter_.Next) = _
      rw [Cursor.advance_pos lm.iter_ hvm, ihm]
      simp only [Nat.mod_add_mod, Nat.add_assoc]

/-- C15: MapDataLayer cursor validity invariant. If the cursor is on a record
of the (then non-empty) store when `InternalThreadEntry` starts, then after
every completed slot of the fill, for every batch size, the cursor is on a
record of the same store, `k` records further around it after `k` slots, and
so it is when the fill ends. Moving the cursor is never an error: the step
after each slot always yields a cursor on a record, the first one when the
cursor stood on the last record and the next one otherwise. On a ready layer
over a store that satisfies the store invariant every slot of the fill and
the fill itself do complete. -/
theorem MapDataLayer.cursor_stays_valid (l : MapDataLayer α) (hv : l.iter_.valid = true) :
    l.iter_.db ≠ [] ∧
    (∀ k lk, l.fillSlots k = some lk →
      lk.iter_.valid = true ∧ lk.iter_.db = l.iter_.db ∧
      lk.iter_.pos = (l.iter_.pos + k) % l.iter_.db.length) ∧
    (∀ l', l.InternalThreadEntry = some l' →
      l'.iter_.valid = true ∧ l'.iter_.db = l.iter_.db ∧
      l'.iter_.pos = (l.iter_.pos + l.data_param.batch_size) % l.iter_.db.length) ∧
    (∀ it : Cursor α, it.valid = true →
      (if !(it.Next).valid then (it.Next).SeekToFirst else it.Next).valid = true ∧
      (it.pos + 1 = it.db.length →
        (if !(it.Next).valid then (it.Next).SeekToFirst else it.Next).pos = 0) ∧
      (it.pos + 1 < it.db.length →
        (if !(it.Next).valid then (it.Next).SeekToFirst else it.Next).pos = it.pos + 1)) ∧
    (∀ (tp : TransformationParameter α) (B : Nat) (dshape lshape : Nat × Nat × Nat),
      l.Ready l.iter_.db tp B dshape lshape → Conforming l.iter_.db dshape lshape →
      tp.crop_size = 0 → tp.mirror = false →
      (∀ mean, tp.mean_file = some mean → mean.length = dshape.1 * dshape.2.1 * dshape.2.2) →
      0 < B * (dshape.1 * dshape.2.1 * dshape.2.2) →
      (∃ l', l.InternalThreadEntry = some l') ∧ ∀ k, k ≤ B → ∃ lk, l.fillSlots k = some lk) := by
  have hpos : l.iter_.pos < l.iter_.db.length := by
    simpa [Cursor.valid] using hv
  have hslots : ∀ k lk, l.fillSlots k = some lk →
      lk.iter_.valid = true ∧ lk.iter_.db = l.iter_.db ∧
      lk.iter_.pos = (l.iter_.pos + k) % l.iter_.db.length := by
    intro k lk h
    have e := fillSlots_cursor l k lk hpos h
    rw [e]
    exact ⟨by simpa [Cursor.valid] using Nat.mod_lt (l.iter_.pos + k) (by omega), rfl, rfl⟩
  refine ⟨?_, hslots, ?_, ?_, ?_⟩
  · intro h; rw [h] at hpos; simp at hpos
  · intro l' h
    rw [InternalThreadEntry_eq_fillSlots] at h
    by_cases hcnt : l.prefetch_data_.count = 0
    · rw [if_pos hcnt] at h; exact Option.noConfusion h
    · rw [if_neg hcnt] at h; exact hslots _ l' h
  · intro it hit
    have hp : it.pos < it.db.length := by simpa [Cursor.valid] using hit
    rw [Cursor.advance_pos it hp]
    refine ⟨by simpa [Cursor.valid] using Nat.mod_lt (it.pos + 1) (by omega), ?_, ?_⟩
    · intro e; show (it.pos + 1) % it.db.length = 0; rw [e, Nat.mod_self]
    · intro e; exact Nat.mod_eq_of_lt e
  · intro tp B dshape lshape hr hconf hc hm hmean hcount
    obtain ⟨l', h1, -⟩ := InternalThreadEntry_spec l l.iter_.db tp B dshape lshape hr hconf
      hc hm hmean hcount
    refine ⟨⟨l', h1⟩, ?_⟩
    intro k hk
    rw [InternalThreadEntry_eq_fillSlots] at h1
    by_cases hcnt : l.prefetch_data_.count = 0
    · rw [if_pos hcnt] at h1; exact Option.noConfusion h1
    · rw [if_neg hcnt, fillSlots, hr.1] at h1
      exact forLoop_prefix _ B k l l' h1 hk

/-- Witness for C15: a layer with batch size 2 whose cursor stands on the
last of 3 records: after the first slot the cursor is rewound to position 0,
and the fill ends with the cursor on position 1. -/
theorem MapDataLayer.cursor_stays_valid_witness :
    ∃ l1 l2,
      MapDataLayer.fillSlots 1 (⟨⟨2, 0⟩, TransformationParameter.default,
        TransformationParameter.default, label_trans_param TransformationParameter.default,
        [⟨[⟨1, 1, 1, 1, [1]⟩, ⟨1, 1, 1, 1, [7]⟩]⟩, ⟨[⟨1, 1, 1, 1, [2]⟩, ⟨1, 1, 1, 1, [7]⟩]⟩,
          ⟨[⟨1, 1, 1, 1, [3]⟩, ⟨1, 1, 1, 1, [7]⟩]⟩],
        ⟨[⟨[⟨1, 1, 1, 1, [1]⟩, ⟨1, 1, 1, 1, [7]⟩]⟩, ⟨[⟨1, 1, 1, 1, [2]⟩, ⟨1, 1, 1, 1, [7]⟩]⟩,
          ⟨[⟨1, 1, 1, 1, [3]⟩, ⟨1, 1, 1, 1, [7]⟩]⟩], 2⟩,
        Blob.create 2 1 1 1, Blob.create 2 1 1 1, Blob.create 1 1 1 1, Blob.create 1 1 1 1⟩ :
        MapDataLayer Int) = some l1 ∧
      l1.iter_.valid = true ∧ l1.iter_.pos = 0 ∧
      MapDataLayer.InternalThreadEntry (⟨⟨2, 0⟩, TransformationParameter.default,
        TransformationParameter.default, label_trans_param TransformationParameter.default,
        [⟨[⟨1, 1, 1, 1, [1]⟩, ⟨1, 1, 1, 1, [7]⟩]⟩, ⟨[⟨1, 1, 1, 1, [2]⟩, ⟨1, 1, 1, 1, [7]⟩]⟩,
          ⟨[⟨1, 1, 1, 1, [3]⟩, ⟨1, 1, 1, 1, [7]⟩]⟩],
        ⟨[⟨[⟨1, 1, 1, 1, [1]⟩, ⟨1, 1, 1, 1, [7]⟩]⟩, ⟨[⟨1, 1, 1, 1, [2]⟩, ⟨1, 1, 1, 1, [7]⟩]⟩,
          ⟨[⟨1, 1, 1, 1, [3]⟩, ⟨1, 1, 1, 1, [7]⟩]⟩], 2⟩,
        Blob.create 2 1 1 1, Blob.create 2 1 1 1, Blob.create 1 1 1 1, Blob.create 1 1 1 1⟩ :
        MapDataLayer Int) = some l2 ∧
      l2.iter_.valid = true ∧ l2.iter_.pos = 1 := by
  obtain ⟨-, hs, hf, -, -⟩ := cursor_stays_valid (⟨⟨2, 0⟩, TransformationParameter.default,
    TransformationParameter.default, label_trans_param TransformationParameter.default,
    [⟨[⟨1, 1, 1, 1, [1]⟩, ⟨1, 1, 1, 1, [7]⟩]⟩, ⟨[⟨1, 1, 1, 1, [2]⟩, ⟨1, 1, 1, 1, [7]⟩]⟩,
      ⟨[⟨1, 1, 1, 1, [3]⟩, ⟨1, 1, 1, 1, [7]⟩]⟩],
    ⟨[⟨[⟨1, 1, 1, 1, [1]⟩, ⟨1, 1, 1, 1, [7]⟩]⟩, ⟨[⟨1, 1, 1, 1, [2]⟩, ⟨1, 1, 1, 1, [7]⟩]⟩,
      ⟨[⟨1, 1, 1, 1, [3]⟩, ⟨1, 1, 1, 1, [7]⟩]⟩], 2⟩,
    Blob.create 2 1 1 1, Blob.create 2 1 1 1, Blob.create 1 1 1 1, Blob.create 1 1 1 1⟩ :
    MapDataLayer Int) (by decide)
  obtain ⟨l1, h1⟩ := Option.isSome_iff_exists.mp
    (show (MapDataLayer.fillSlots 1 (⟨⟨2, 0⟩, TransformationParameter.default,
      TransformationParameter.default, label_trans_param TransformationParameter.default,
      [⟨[⟨1, 1, 1, 1, [1]⟩, ⟨1, 1, 1, 1, [7]⟩]⟩, ⟨[⟨1, 1, 1, 1, [2]⟩, ⟨1, 1, 1, 1, [7]⟩]⟩,
        ⟨[⟨1, 1, 1, 1, [3]⟩, ⟨1, 1, 1, 1, [7]⟩]⟩],
      ⟨[⟨[⟨1, 1, 1, 1, [1]⟩, ⟨1, 1, 1, 1, [7]⟩]⟩, ⟨[⟨1, 1, 1, 1, [2]⟩, ⟨1, 1, 1, 1, [7]⟩]⟩,
        ⟨[⟨1, 1, 1, 1, [3]⟩, ⟨1, 1, 1, 1, [7]⟩]⟩], 2⟩,
      Blob.create 2 1 1 1, Blob.create 2 1 1 1, Blob.create 1 1 1 1, Blob.create 1 1 1 1⟩ :
      MapDataLayer Int)).isSome = true by decide)
  obtain ⟨l2, h2⟩ := Option.isSome_iff_exists.mp
    (show (MapDataLayer.InternalThreadEntry (⟨⟨2, 0⟩, TransformationParameter.default,
      TransformationParameter.default, label_trans_param TransformationParameter.default,
      [⟨[⟨1, 1, 1, 1, [1]⟩, ⟨1, 1, 1, 1, [7]⟩]⟩, ⟨[⟨1, 1, 1, 1, [2]⟩, ⟨1, 1, 1, 1, [7]⟩]⟩,
        ⟨[⟨1, 1, 1, 1, [3]⟩, ⟨1, 1, 1, 1, [7]⟩]⟩],
      ⟨[⟨[⟨1, 1, 1, 1, [1]⟩, ⟨1, 1, 1, 1, [7]⟩]⟩, ⟨[⟨1, 1, 1, 1, [2]⟩, ⟨1, 1, 1, 1, [7]⟩]⟩,
        ⟨[⟨1, 1, 1, 1, [3]⟩, ⟨1, 1, 1, 1, [7]⟩]⟩], 2⟩,
      Blob.create 2 1 1 1, Blob.create 2 1 1 1, Blob.create 1 1 1 1, Blob.create 1 1 1 1⟩ :
      MapDataLayer Int)).isSome = true by decide)
  obtain ⟨v1, -, p1⟩ := hs 1 l1 h1
  obtain ⟨v2, -, p2⟩ := hf l2 h2
  exact ⟨l1, l2, h1, v1, p1, h2, v2, p2⟩

end

section
variable {α : Type} [CommRing α]

/-- C16: `PerspectiveLayer::Backward_cpu` frame. On a set-up layer, for every
vector of propagate flags, all false included, `Backward_cpu` succeeds and
gives the same bottoms as for any other flag vector. It changes only the
gradient entries `0..N-1` of `bottom[0]` (slope) and `bottom[1]` (intercept),
and it does write them, with the inner products that depend neither on the
flags nor on what the entries held: the shapes and value buffers of all three
bottoms, the gradient entries from `N` on, and the reference blob `bottom[2]`
as a whole, gradient buffer included, are unchanged. The layer, with its two
multiplier planes, and the top blobs are only read: they are arguments of
`Backward_cpu`, and its result holds the bottoms alone. -/
theorem PerspectiveLayer.Backward_cpu_frame (p : PerspectiveParameter α)
    (b0 b1 b2 t0 t : Blob α) (rest rest' : List (Blob α)) (flags flags' : List Bool)
    (h0 : b0.countFrom 1 = 1) (h1 : b1.countFrom 1 = 1)
    (hd0 : b0.num ≤ b0.diff.length) (hd1 : b0.num ≤ b1.diff.length)
    (htc : t.channels = 1) (hth : t.height = b2.height) (htw : t.width = b2.width)
    (htd : b0.num * (b2.height * b2.width) ≤ t.diff.length) :
    ∃ l top b0' b1', (create p).SetUp [b0, b1, b2] (t0 :: rest) = some (l, top) ∧
      l.Backward_cpu (t :: rest') flags [b0, b1, b2] = some [b0', b1', b2] ∧
      l.Backward_cpu (t :: rest') flags' [b0, b1, b2] = some [b0', b1', b2] ∧
      l.Backward_cpu (t :: rest') [false, false, false] [b0, b1, b2] = some [b0', b1', b2] ∧
      (b0'.shape = b0.shape ∧ b0'.data = b0.data ∧ b0'.diff.length = b0.diff.length ∧
        ∀ j, b0.num ≤ j → b0'.diff[j]? = b0.diff[j]?) ∧
      (b1'.shape = b1.shape ∧ b1'.data = b1.data ∧ b1'.diff.length = b1.diff.length ∧
        ∀ j, b0.num ≤ j → b1'.diff[j]? = b1.diff[j]?) ∧
      ∀ n, n < b0.num →
        b0'.diff[n]? = some (∑ i in Finset.range (b2.height * b2.width),
          t.diff.getD (n * (b2.height * b2.width) + i) 0
            * (slopePlane p.slope_mult b2.height b2.width).getD i 0) ∧
        b1'.diff[n]? = some (∑ i in Finset.range (b2.height * b2.width),
          t.diff.getD (n * (b2.height * b2.width) + i) 0
            * (interceptPlane p.intercept_mult b2.height b2.width).getD i 0) := by
  obtain ⟨l, hs, hl⟩ := SetUp_isSetUp p b0 b1 b2 t0 rest h0 h1
  obtain ⟨hp, hN, hH, hW, hsm, him⟩ := hl
  obtain ⟨d0, d1, hb, l0, l1, v0, v1, u0, u1⟩ := Backward_cpu_spec l b0 b1 b2 t rest' flags
    b0.num b2.height b2.width hN hH hW (by rw [hsm]; simp [slopePlane])
    (by rw [him]; simp [interceptPlane]) hd0 hd1 htc hth htw htd
  refine ⟨l, _, { b0 with diff := d0 }, { b1 with diff := d1 }, hs, hb, hb, hb,
    ⟨rfl, rfl, l0, u0⟩, ⟨rfl, rfl, l1, u1⟩, ?_⟩
  intro n hn
  rw [← hsm, ← him]
  exact ⟨v0 n hn, v1 n hn⟩

/-- Witness for C16: two samples, a `2×2` reference blob, stale gradients 9
and 8 and all flags false: the bottoms come out as with the flags set, the
gradient entries of sample 1 overwritten with 30 and 78. -/
theorem PerspectiveLayer.Backward_cpu_frame_witness :
    ∃ l top b0' b1', (create (⟨2, 3⟩ : PerspectiveParameter Int)).SetUp
        [⟨2, 1, 1, 1, [3, 5], [9, 9]⟩, ⟨2, 1, 1, 1, [7, 11], [8, 8]⟩, Blob.create 1 1 2 2]
        [Blob.empty] = some (l, top) ∧
      l.Backward_cpu [⟨2, 1, 2, 2, [0, 0, 0, 0, 0, 0, 0, 0], [1, 2, 3, 4, 5, 6, 7, 8]⟩]
        [false, false, false]
        [⟨2, 1, 1, 1, [3, 5], [9, 9]⟩, ⟨2, 1, 1, 1, [7, 11], [8, 8]⟩, Blob.create 1 1 2 2]
        = some [b0', b1', Blob.create 1 1 2 2] ∧
      l.Backward_cpu [⟨2, 1, 2, 2, [0, 0, 0, 0, 0, 0, 0, 0], [1, 2, 3, 4, 5, 6, 7, 8]⟩]
        [true, true, true]
        [⟨2, 1, 1, 1, [3, 5], [9, 9]⟩, ⟨2, 1, 1, 1, [7, 11], [8, 8]⟩, Blob.create 1 1 2 2]
        = some [b0', b1', Blob.create 1 1 2 2] ∧
      b0'.data = [3, 5] ∧ b1'.data = [7, 11] ∧
      b0'.diff[1]? = some 30 ∧ b1'.diff[1]? = some 78 := by
  obtain ⟨l, top, b0', b1', h1, -, h2, h3, ⟨-, e0, -, -⟩, ⟨-, e1, -, -⟩, hv⟩ :=
    Backward_cpu_frame (⟨2, 3⟩ : PerspectiveParameter Int)
      ⟨2, 1, 1, 1, [3, 5], [9, 9]⟩ ⟨2, 1, 1, 1, [7, 11], [8, 8]⟩ (Blob.create 1 1 2 2)
      Blob.empty ⟨2, 1, 2, 2, [0, 0, 0, 0, 0, 0, 0, 0], [1, 2, 3, 4, 5, 6, 7, 8]⟩ [] []
      [] [true, true, true] (by decide) (by decide) (by decide) (by decide) rfl rfl rfl
      (by decide)
  obtain ⟨g0, g1⟩ := hv 1 (by decide)
  refine ⟨l, top, b0', b1', h1, h3, h2, e0, e1, ?_, ?_⟩
  · rw [g0]; decide
  · rw [g1]; decide

end

theorem blob_index_lt (C H W c h w : Nat) (hc : c < C) (hh : h < H) (hw : w < W) :
    blob_index H W c h w < C * H * W := index_lt C H W c h w hc hh hw

theorem blob_index_inj (H W c h w c' h' w' : Nat) (hh : h < H) (hw : w < W)
    (hh' : h' < H) (hw' : w' < W)
    (e : blob_index H W c h w = blob_index H W c' h' w') : c = c' ∧ h = h' ∧ w = w' :=
  index_inj H W c h w c' h' w' hh hw hh' hw' e

/-- Every flat index below `C*H*W` is the index of a channel, row and column. -/
theorem blob_index_surj (C H W j : Nat) (hj : j < C * H * W) :
    ∃ c h w, c < C ∧ h < H ∧ w < W ∧ blob_index H W c h w = j := by
  have hW : 0 < W := by
    rcases Nat.eq_zero_or_pos W with h | h
    · subst h; simp at hj
    · exact h
  have hq : j / W < C * H := by
    apply Nat.div_lt_of_lt_mul; rw [Nat.mul_comm]; exact hj
  have hH : 0 < H := by
    rcases Nat.eq_zero_or_pos H with h | h
    · subst h; simp at hq
    · exact h
  refine ⟨j / W / H, j / W % H, j % W, ?_, Nat.mod_lt _ hH, Nat.mod_lt _ hW, ?_⟩
  · apply Nat.div_lt_of_lt_mul; rw [Nat.mul_comm]; exact hq
  · rw [blob_index, Nat.div_add_mod' (j / W) H, Nat.div_add_mod' j W]

theorem mem_writeIndices (C H W j : Nat) :
    j ∈ writeIndices C H W ↔ ∃ c h w, c < C ∧ h < H ∧ w < W ∧ blob_index H W c h w = j := by
  simp only [writeIndices, List.mem_flatMap, List.mem_map, List.mem_range]
  constructor
  · rintro ⟨h, hh, w, hw, c, hc, e⟩; exact ⟨c, h, w, hc, hh, hw, e⟩
  · rintro ⟨c, h, w, hc, hh, hw, e⟩; exact ⟨h, hh, w, hw, c, hc, e⟩

theorem nodup_writeIndices (C H W : Nat) : (writeIndices C H W).Nodup := by
  unfold writeIndices
  rw [List.nodup_flatMap]
  constructor
  · intro h hh
    have hh' : h < H := List.mem_range.mp hh
    rw [List.nodup_flatMap]
    constructor
    · intro w hw
      have hw' : w < W := List.mem_range.mp hw
      apply List.Nodup.map_on _ (List.nodup_range C)
      intro c _ c' _ e
      exact (blob_index_inj H W c h w c' h w hh' hw' hh' hw' e).1
    · apply List.Nodup.pairwise_of_forall_ne (List.nodup_range W)
      intro w hw w' hw' hne
      have hw1 : w < W := List.mem_range.mp hw
      have hw2 : w' < W := List.mem_range.mp hw'
      simp only [Function.onFun, List.disjoint_left, List.mem_map, List.mem_range]
      rintro j ⟨c, _, e⟩ ⟨c', _, e'⟩
      exact hne (blob_index_inj H W c h w c' h w' hh' hw1 hh' hw2 (e.trans e'.symm)).2.2
  · apply List.Nodup.pairwise_of_forall_ne (List.nodup_range H)
    intro h hh h' hh' hne
    have hh1 : h < H := List.mem_range.mp hh
    have hh2 : h' < H := List.mem_range.mp hh'
    simp only [Function.onFun, List.disjoint_left, List.mem_flatMap, List.mem_map,
      List.mem_range]
    rintro j ⟨w, hw, c, _, e⟩ ⟨w', hw', c', _, e'⟩
    exact hne (blob_index_inj H W c h w c' h' w' hh1 hw hh2 hw' (e.trans e'.symm)).2.1

theorem perm_writeIndices (C H W : Nat) :
    (writeIndices C H W).Perm (List.range (C * H * W)) := by
  rw [List.perm_ext_iff_of_nodup (nodup_writeIndices C H W) (List.nodup_range _)]
  intro j
  rw [mem_writeIndices, List.mem_range]
  constructor
  · rintro ⟨c, h, w, hc, hh, hw, rfl⟩; exact blob_index_lt C H W c h w hc hh hw
  · exact blob_index_surj C H W j

section
variable {α : Type} [CommRing α]

theorem Mat.writesBefore_start (cv_img : Mat) :
    (cv_img.writesBefore 0 0 0 : List (Nat × α)) = [] := by
  simp [Mat.writesBefore]

theorem Mat.writesBefore_succ (cv_img : Mat) (h w c : Nat) :
    (cv_img.writesBefore h w (c + 1) : List (Nat × α))
      = cv_img.writesBefore h w c
        ++ [(blob_index cv_img.rows cv_img.cols c h w, cv_img.value c h w)] := by
  simp [Mat.writesBefore, List.range_succ]

theorem Mat.writesBefore_next_col (cv_img : Mat) (h w : Nat) :
    (cv_img.writesBefore h w cv_img.channels : List (Nat × α))
      = cv_img.writesBefore h (w + 1) 0 := by
  simp [Mat.writesBefore, List.range_succ]

theorem Mat.writesBefore_next_row (cv_img : Mat) (h : Nat) :
    (cv_img.writesBefore h cv_img.cols 0 : List (Nat × α))
      = cv_img.writesBefore (h + 1) 0 0 := by
  simp [Mat.writesBefore, List.range_succ]

theorem Mat.writesBefore_end (cv_img : Mat) :
    (cv_img.writesBefore cv_img.rows 0 0 : List (Nat × α)) = cv_img.writes := by
  simp [Mat.writesBefore, Mat.writes]

theorem Mat.map_fst_writes (cv_img : Mat) :
    (cv_img.writes : List (Nat × α)).map Prod.fst
      = writeIndices cv_img.channels cv_img.rows cv_img.cols := by
  simp [Mat.writes, writeIndices, List.map_flatMap, Function.comp_def]

omit [CommRing α] in
theorem applyWrites_append (ws : List (Nat × α)) (i : Nat) (v : α) (buf : List α) :
    applyWrites (ws ++ [(i, v)]) buf = (applyWrites ws buf).set i v := by
  simp [applyWrites]

/-- The conversion performs exactly the stores of `Mat.writes`, in order, on
the zero-filled data. -/
theorem CVMatToBlobProto_writes (cv_img : Mat) (blob : BlobProto α)
    (hd : cv_img.depth = CV_8U) (hwf : cv_img.WellFormed) :
    ∃ out, CVMatToBlobProto cv_img blob = some out ∧
      cv_img.Converted cv_img.rows 0 0 out ∧
      out.data = applyWrites cv_img.writes
        (List.replicate (cv_img.channels * cv_img.rows * cv_img.cols) 0) := by
  suffices h : ∃ out, CVMatToBlobProto cv_img blob = some out ∧
      cv_img.Converted cv_img.rows 0 0 out ∧
      out.data = applyWrites (cv_img.writesBefore cv_img.rows 0 0)
        (List.replicate (cv_img.channels * cv_img.rows * cv_img.cols) 0) by
    rw [Mat.writesBefore_end] at h; exact h
  unfold CVMatToBlobProto
  rw [if_neg (by simp [hd])]
  simp only [List.length_nil, Nat.sub_zero, List.nil_append, Option.bind_eq_bind]
  apply forLoop_inv (fun h (b : BlobProto α) => cv_img.Converted h 0 0 b ∧
    b.data = applyWrites (cv_img.writesBefore h 0 0)
      (List.replicate (cv_img.channels * cv_img.rows * cv_img.cols) 0))
  · refine ⟨⟨⟨rfl, rfl, rfl, rfl⟩, by simp, ?_⟩, ?_⟩
    · intro c' h' w' _ _ _ hlt
      omega
    · rw [Mat.writesBefore_start]; rfl
  · rintro h b hh ⟨hinv, hdata⟩
    obtain ⟨row, hrow⟩ : ∃ row, cv_img.ptr h = some row := by
      rw [Mat.ptr]
      exact ⟨_, List.getElem?_eq_getElem (by rw [hwf.1]; exact hh)⟩
    rw [hrow, Option.some_bind]
    apply bind_spec (fun st : BlobProto α × Nat => cv_img.Converted h cv_img.cols 0 st.1 ∧
      st.1.data = applyWrites (cv_img.writesBefore h cv_img.cols 0)
        (List.replicate (cv_img.channels * cv_img.rows * cv_img.cols) 0))
    · apply forLoop_inv_post (fun w (st : BlobProto α × Nat) =>
        (cv_img.Converted h w 0 st.1 ∧
          st.1.data = applyWrites (cv_img.writesBefore h w 0)
            (List.replicate (cv_img.channels * cv_img.rows * cv_img.cols) 0)) ∧
        st.2 = w * cv_img.channels)
      · exact ⟨⟨hinv, hdata⟩, by simp⟩
      · rintro w ⟨b1, ii⟩ hw ⟨⟨hb1, hd1⟩, hii⟩
        simp only at hb1 hd1 hii
        subst hii
        apply forLoop_inv_post (fun c (st : BlobProto α × Nat) =>
          (cv_img.Converted h w c st.1 ∧
            st.1.data = applyWrites (cv_img.writesBefore h w c)
              (List.replicate (cv_img.channels * cv_img.rows * cv_img.cols) 0)) ∧
          st.2 = w * cv_img.channels + c)
        · exact ⟨⟨hb1, hd1⟩, rfl⟩
        · rintro c ⟨b2, ii⟩ hc ⟨⟨hb2, hd2⟩, hii⟩
          simp only at hb2 hd2 hii
          subst hii
          obtain ⟨px, data, hpx, hwr, hnext⟩ := hb2.store_step hwf hh hw hc row hrow
          have hval : cv_img.value c h w = (px : α) := by
            rw [Mat.ptr] at hrow
            simp [Mat.value, List.getD_eq_getElem?_getD, hrow, hpx]
          have hset : data = b2.data.set (blob_index cv_img.rows cv_img.cols c h w)
              (cv_img.value c h w) := by
            rw [writeAt] at hwr
            split at hwr
            · rw [hval]; exact (Option.some.inj hwr).symm
            · exact Option.noConfusion hwr
          refine ⟨({ b2 with data := data }, w * cv_img.channels + c + 1), ?_,
            ⟨hnext, ?_⟩, rfl⟩
          · simp only [hpx, hwr, Option.some_bind]
          · show data = _
            rw [Mat.writesBefore_succ, applyWrites_append, ← hd2, hset]
        · rintro ⟨b3, ii⟩ ⟨⟨hb3, hd3⟩, hii⟩
          simp only at hb3 hd3 hii
          exact ⟨⟨hb3.next_col, by rw [← Mat.writesBefore_next_col]; exact hd3⟩,
            by rw [hii, Nat.succ_mul]⟩
      · rintro ⟨b5, ii⟩ ⟨hb5, -⟩
        exact hb5
    · rintro ⟨b4, ii⟩ ⟨hb4, hd4⟩
      exact ⟨b4, rfl, hb4.next_row, by rw [← Mat.writesBefore_next_row]; exact hd4⟩

/-- C17: the index layout of `CVMatToBlobProto` is a bijection. For all `C`,
`H`, `W` the map `(c, h, w) ↦ (c*H + h)*W + w` is injective on `c < C`,
`h < H`, `w < W` and its image is exactly the flat indices below `C*H*W`; the
indices that the loops store at, taken in the order of the stores, have no
repetition and are a rearrangement of `0, …, C*H*W - 1`, `C*H*W` stores in
all. For every well-formed 8-bit image the conversion succeeds and its data is
the zero-filled buffer with exactly these stores applied, so every one of the
`C*H*W` entries is written exactly once, with the pixel value of the one
channel, row and column it is the index of, and none keeps the initial fill. -/
theorem CVMatToBlobProto_index_bijection (C H W : Nat) (cv_img : Mat) (blob : BlobProto α)
    (hd : cv_img.depth = CV_8U) (hwf : cv_img.WellFormed) :
    (∀ c h w c' h' w', c < C → h < H → w < W → c' < C → h' < H → w' < W →
      blob_index H W c h w = blob_index H W c' h' w' → c = c' ∧ h = h' ∧ w = w') ∧
    (∀ j, j < C * H * W ↔ ∃ c h w, c < C ∧ h < H ∧ w < W ∧ blob_index H W c h w = j) ∧
    ((writeIndices C H W).Nodup ∧ (writeIndices C H W).Perm (List.range (C * H * W)) ∧
      (writeIndices C H W).length = C * H * W) ∧
    ∃ out, CVMatToBlobProto cv_img blob = some out ∧
      out.data = applyWrites cv_img.writes
        (List.replicate (cv_img.channels * cv_img.rows * cv_img.cols) 0) ∧
      (cv_img.writes : List (Nat × α)).map Prod.fst
        = writeIndices cv_img.channels cv_img.rows cv_img.cols ∧
      out.data.length = cv_img.channels * cv_img.rows * cv_img.cols ∧
      ∀ j, j < cv_img.channels * cv_img.rows * cv_img.cols →
        ∃ c h w, c < cv_img.channels ∧ h < cv_img.rows ∧ w < cv_img.cols ∧
          blob_index cv_img.rows cv_img.cols c h w = j ∧
          (∀ c' h' w', c' < cv_img.channels → h' < cv_img.rows → w' < cv_img.cols →
            blob_index cv_img.rows cv_img.cols c' h' w' = j → c' = c ∧ h' = h ∧ w' = w) ∧
          out.data[j]? = some (cv_img.value c h w) := by
  refine ⟨?_, ?_, ⟨nodup_writeIndices C H W, perm_writeIndices C H W, ?_⟩, ?_⟩
  · intro c h w c' h' w' _ hh hw _ hh' hw' e
    exact blob_index_inj H W c h w c' h' w' hh hw hh' hw' e
  · intro j
    constructor
    · exact blob_index_surj C H W j
    · rintro ⟨c, h, w, hc, hh, hw, rfl⟩; exact blob_index_lt C H W c h w hc hh hw
  · rw [(perm_writeIndices C H W).length_eq, List.length_range]
  · obtain ⟨out, hout, ⟨-, hlen, hval⟩, hdata⟩ := CVMatToBlobProto_writes cv_img blob hd hwf
    refine ⟨out, hout, hdata, Mat.map_fst_writes cv_img, hlen, ?_⟩
    intro j hj
    obtain ⟨c, h, w, hc, hh, hw, e⟩ :=
      blob_index_surj cv_img.channels cv_img.rows cv_img.cols j hj
    refine ⟨c, h, w, hc, hh, hw, e, ?_, ?_⟩
    · intro c' h' w' _ hh' hw' e'
      exact blob_index_inj _ _ c' h' w' c h w hh' hw' hh hw (e'.trans e.symm)
    · rw [← e]
      exact hval c h w hc hh hw (Or.inl hh)

/-- Witness for C17: a `2×2` image with 3 interleaved channels: the twelve
stores go to twelve different indices and leave the twelve bytes in
channel-major order. -/
theorem CVMatToBlobProto_index_bijection_witness :
    (writeIndices 3 2 2).Perm (List.range 12) ∧
    writeIndices 3 2 2 = [0, 4, 8, 1, 5, 9, 2, 6, 10, 3, 7, 11] ∧
    ∃ out, CVMatToBlobProto ⟨2, 2, 3, CV_8U, [[1, 2, 3, 4, 5, 6], [7, 8, 9, 10, 11, 12]]⟩
        (⟨0, 0, 0, 0, []⟩ : BlobProto Int) = some out ∧
      out.data = [1, 4, 7, 10, 2, 5, 8, 11, 3, 6, 9, 12] := by
  obtain ⟨-, -, ⟨-, hperm, -⟩, out, hout, hdata, -, -, -⟩ := CVMatToBlobProto_index_bijection
    3 2 2 ⟨2, 2, 3, CV_8U, [[1, 2, 3, 4, 5, 6], [7, 8, 9, 10, 11, 12]]⟩
    (⟨0, 0, 0, 0, []⟩ : BlobProto Int) rfl (by decide)
  exact ⟨hperm, by decide, out, hout, hdata.trans (by decide)⟩

end
end caffe
